import Mathlib

/-!
Verification of the orchestration core of the AI-clone platform:
record stores (jobs, clones), the integration store with its mutex,
the training pipeline runner and the worker manager.  The definitions
below are a shallow embedding of the TypeScript sources
(`src/lib/jobStore.ts`, `src/lib/cloneStore.ts`, `src/lib/workerManager.ts`,
`src/lib/integrationStore.ts`, `src/lib/repositories/jobRepository.ts`,
`src/lib/repositories/cloneRepository.ts`,
`src/app/api/training/route.ts`).  JavaScript `Map` objects are embedded
as association lists preserving insertion order (`Map.set` on an existing
key keeps the entry position, on a fresh key appends; `Map.values()`
iterates in insertion order).  `Date.now()` is passed explicitly as a
`now : Nat` argument.  External subprocesses are judged, as in the
source, only by exit code and output lines, which are supplied by a
`PipelineWorld` parameter.
-/

namespace Js

variable {α : Type}

/-- `Map.get` / object indexing: first entry with the key. -/
def get (l : List (String × α)) (k : String) : Option α :=
  match l with
  | [] => none
  | (k2, v) :: rest => if k2 = k then some v else get rest k

/-- `Map.set`: replace in place when the key exists, append otherwise. -/
def set (l : List (String × α)) (k : String) (v : α) : List (String × α) :=
  match l with
  | [] => [(k, v)]
  | (k2, v2) :: rest => if k2 = k then (k, v) :: rest else (k2, v2) :: set rest k v

/-- `Map.delete`: remove the first entry with the key. -/
def del (l : List (String × α)) (k : String) : List (String × α) :=
  match l with
  | [] => []
  | (k2, v2) :: rest => if k2 = k then rest else (k2, v2) :: del rest k

/-- The keys of the map, in insertion order. -/
def keys (l : List (String × α)) : List String :=
  l.map Prod.fst

theorem get_set_self (l : List (String × α)) (k : String) (v : α) :
    get (set l k v) k = some v := by
  induction l with
  | nil => simp [get, set]
  | cons hd tl ih =>
    obtain ⟨k2, v2⟩ := hd
    by_cases h : k2 = k
    · simp [get, set, h]
    · simp [get, set, h, ih]

theorem get_set_ne (l : List (String × α)) (k k2 : String) (v : α) (h : k ≠ k2) :
    get (set l k v) k2 = get l k2 := by
  induction l with
  | nil => simp [get, set, h]
  | cons hd tl ih =>
    obtain ⟨k3, v3⟩ := hd
    by_cases h3 : k3 = k
    · subst h3
      simp [get, set, h]
    · simp only [set, if_neg h3, get]
      by_cases h4 : k3 = k2
      · simp [h4]
      · simp [h4, ih]

theorem get_del_ne (l : List (String × α)) (k k2 : String) (h : k ≠ k2) :
    get (del l k) k2 = get l k2 := by
  induction l with
  | nil => simp [del]
  | cons hd tl ih =>
    obtain ⟨k3, v3⟩ := hd
    by_cases h3 : k3 = k
    · subst h3
      simp [del, get, if_neg (fun hh => h hh)]
    · simp only [del, if_neg h3, get]
      by_cases h4 : k3 = k2
      · simp [h4]
      · simp [h4, ih]

theorem keys_set_of_mem (l : List (String × α)) (k : String) (v : α)
    (h : (get l k).isSome) : keys (set l k v) = keys l := by
  induction l with
  | nil => simp [get] at h
  | cons hd tl ih =>
    obtain ⟨k2, v2⟩ := hd
    by_cases h2 : k2 = k
    · simp [keys, set, h2]
    · simp only [get, if_neg h2] at h
      simp [keys, set, if_neg h2] at ih ⊢
      exact ih h

theorem keys_set_of_not_mem (l : List (String × α)) (k : String) (v : α)
    (h : get l k = none) : keys (set l k v) = keys l ++ [k] := by
  induction l with
  | nil => simp [keys, set]
  | cons hd tl ih =>
    obtain ⟨k2, v2⟩ := hd
    by_cases h2 : k2 = k
    · simp [get, h2] at h
    · simp only [get, if_neg h2] at h
      simp [keys, set, if_neg h2] at ih ⊢
      exact ih h

theorem get_eq_none_of_not_mem_keys (l : List (String × α)) (k : String)
    (h : k ∉ keys l) : get l k = none := by
  induction l with
  | nil => simp [get]
  | cons hd tl ih =>
    obtain ⟨k2, v2⟩ := hd
    simp only [keys, List.map_cons, List.mem_cons, not_or] at h
    rw [get, if_neg (fun hh => h.1 hh.symm)]
    exact ih h.2

theorem mem_keys_of_get_isSome (l : List (String × α)) (k : String)
    (h : (get l k).isSome) : k ∈ keys l := by
  by_contra hc
  rw [get_eq_none_of_not_mem_keys l k hc] at h
  simp at h

/-- A successful lookup splits the list at the first entry with the key. -/
theorem get_some_split (l : List (String × α)) (k : String) (v : α)
    (h : get l k = some v) :
    ∃ l1 l2, l = l1 ++ (k, v) :: l2 ∧ k ∉ keys l1 := by
  induction l with
  | nil => simp [get] at h
  | cons hd tl ih =>
    obtain ⟨k2, v2⟩ := hd
    by_cases h2 : k2 = k
    · subst h2
      simp [get] at h
      subst h
      exact ⟨[], tl, by simp, by simp [keys]⟩
    · simp only [get, if_neg h2] at h
      obtain ⟨l1, l2, hl, hk⟩ := ih h
      refine ⟨(k2, v2) :: l1, l2, by simp [hl], ?_⟩
      simp [keys] at hk ⊢
      exact ⟨fun hh => h2 hh.symm, hk⟩

theorem not_mem_keys_of_get_eq_none (l : List (String × α)) (k : String)
    (h : get l k = none) : k ∉ keys l := by
  induction l with
  | nil => simp [keys]
  | cons hd tl ih =>
    obtain ⟨k2, v2⟩ := hd
    by_cases h2 : k2 = k
    · simp [get, h2] at h
    · simp only [get, if_neg h2] at h
      simp only [keys, List.map_cons, List.mem_cons, not_or]
      exact ⟨fun hh => h2 hh.symm, ih h⟩

theorem nodup_keys_set (l : List (String × α)) (k : String) (v : α)
    (h : (keys l).Nodup) : (keys (set l k v)).Nodup := by
  cases hg : get l k with
  | some w =>
    rw [keys_set_of_mem l k v (by rw [hg]; rfl)]
    exact h
  | none =>
    rw [keys_set_of_not_mem l k v hg]
    simp [List.nodup_append, h]
    exact not_mem_keys_of_get_eq_none l k hg

theorem sublist_keys_del (l : List (String × α)) (k : String) :
    (keys (del l k)).Sublist (keys l) := by
  induction l with
  | nil => simp [del, keys]
  | cons hd tl ih =>
    obtain ⟨k2, v2⟩ := hd
    by_cases h2 : k2 = k
    · simp only [del, if_pos h2, keys]
      exact (List.sublist_cons_self _ _)
    · simp only [del, if_neg h2, keys, List.map_cons]
      exact ih.cons₂ _

theorem nodup_keys_del (l : List (String × α)) (k : String)
    (h : (keys l).Nodup) : (keys (del l k)).Nodup :=
  (sublist_keys_del l k).nodup h

end Js

/-- JavaScript string truthiness for optional string fields:
`if (data.x)` runs only for a present, non-empty string. -/
def truthyStr (o : Option String) : Bool :=
  match o with
  | none => false
  | some s => decide (s ≠ "")

/-! ## Job store (`src/lib/jobStore.ts`) -/

inductive JobStatus
  | queued
  | running
  | succeeded
  | failed
deriving DecidableEq

structure KnowledgeSource where
  source : String
  chunks : Nat
  displayName : Option String
  size : Option Nat
deriving DecidableEq

structure TrainingJob where
  id : String
  modelId : String
  datasetPath : String
  systemPrompt : String
  persona : Option String
  cloneId : Option String
  cloneName : Option String
  adapterDir : Option String
  processedDir : Option String
  knowledgeFile : Option String
  ragIndexDir : Option String
  knowledgeCount : Option Nat
  knowledgeSources : Option (List KnowledgeSource)
  createdAt : Nat
  updatedAt : Nat
  status : JobStatus
  logs : List String
  error : Option String
deriving DecidableEq

namespace JobStore

/-- The in-memory `jobs` map: id to record, in insertion order. -/
abbrev State := List (String × TrainingJob)

structure CreateJobParams where
  modelId : String
  datasetPath : String
  systemPrompt : String
  persona : Option String := none
  cloneId : Option String := none
  cloneName : Option String := none
  adapterDir : Option String := none
deriving DecidableEq

/-- `createJob`: the generated `randomUUID` is passed in as `id`,
`Date.now()` as `now`. -/
def createJob (st : State) (id : String) (now : Nat) (p : CreateJobParams) :
    State × TrainingJob :=
  let job : TrainingJob := {
    id := id
    modelId := p.modelId
    datasetPath := p.datasetPath
    systemPrompt := p.systemPrompt
    persona := p.persona
    cloneId := p.cloneId
    cloneName := p.cloneName
    adapterDir := p.adapterDir
    processedDir := none
    knowledgeFile := none
    ragIndexDir := none
    knowledgeCount := none
    knowledgeSources := none
    createdAt := now
    updatedAt := now
    status := JobStatus.queued
    logs := []
    error := none }
  (Js.set st id job, job)

/-- The partial update argument of `updateJob`. -/
structure JobUpdate where
  status : Option JobStatus := none
  logs : Option (List String) := none
  error : Option String := none
  updatedAt : Option Nat := none
  adapterDir : Option String := none
  processedDir : Option String := none
  knowledgeFile : Option String := none
  ragIndexDir : Option String := none
  knowledgeCount : Option Nat := none
  knowledgeSources : Option (List KnowledgeSource) := none
deriving DecidableEq

/-- The field-by-field guard chain in the body of `updateJob`:
`if (data.status) ...` down to `job.updatedAt = data.updatedAt ?? Date.now()`. -/
def applyJobUpdate (j : TrainingJob) (d : JobUpdate) (now : Nat) : TrainingJob :=
  let j := match d.status with | some s => { j with status := s } | none => j
  let j := match d.logs with | some ls => { j with logs := ls } | none => j
  let j := if truthyStr d.error then { j with error := d.error } else j
  let j := if truthyStr d.adapterDir then { j with adapterDir := d.adapterDir } else j
  let j := if truthyStr d.processedDir then { j with processedDir := d.processedDir } else j
  let j := match d.knowledgeFile with | some f => { j with knowledgeFile := some f } | none => j
  let j := match d.ragIndexDir with | some r => { j with ragIndexDir := some r } | none => j
  let j := match d.knowledgeCount with | some c => { j with knowledgeCount := some c } | none => j
  let j := match d.knowledgeSources with | some s => { j with knowledgeSources := some s } | none => j
  { j with updatedAt := d.updatedAt.getD now }

def updateJob (st : State) (id : String) (d : JobUpdate) (now : Nat) : State :=
  match Js.get st id with
  | none => st
  | some j => Js.set st id (applyJobUpdate j d now)

def appendLog (st : State) (id : String) (line : String) (now : Nat) : State :=
  match Js.get st id with
  | none => st
  | some j => Js.set st id { j with logs := j.logs ++ [line], updatedAt := now }

def getJob (st : State) (id : String) : Option TrainingJob :=
  Js.get st id

/-- `listJobs`: `Array.from(jobs.values())`, i.e. the records in map
insertion order. -/
def listJobs (st : State) : List TrainingJob :=
  st.map Prod.snd

/-- The restart sanitization applied to each job parsed from `jobs.json`:
a `running` job becomes `failed` with the interrupted-by-restart error. -/
def sanitizeLoadedJob (j : TrainingJob) : TrainingJob :=
  if j.status = JobStatus.running then
    { j with status := JobStatus.failed,
             error := some "Training interrupted by server restart" }
  else j

/-- `loadJobsFromDisk` on the parsed file content (the entries of the
JSON object, in file order). -/
def loadJobsFromDisk (parsed : List (String × TrainingJob)) : State :=
  parsed.map (fun p => (p.1, sanitizeLoadedJob p.2))

end JobStore

/-! ## Clone store (`src/lib/cloneStore.ts`) -/

inductive CloneStatus
  | training
  | ready
  | failed
deriving DecidableEq

structure CloneRecord where
  id : String
  name : String
  modelId : String
  jobId : String
  status : CloneStatus
  datasetCount : Option Nat
  datasetId : Option String
  messengers : Option (List String)
  apiKey : Option String
  isRunning : Option Bool
  startedAt : Option Nat
  createdAt : Nat
  updatedAt : Nat
  knowledgeCount : Option Nat
  knowledgeSources : Option (List KnowledgeSource)
  knowledgeFile : Option String
  ragIndexDir : Option String
deriving DecidableEq

namespace CloneStore

abbrev State := List (String × CloneRecord)

structure CreateCloneParams where
  name : String
  modelId : String
  jobId : String
  status : Option CloneStatus := none
  datasetCount : Option Nat := none
  datasetId : Option String := none
  startedAt : Option Nat := none
  knowledgeCount : Option Nat := none
  knowledgeSources : Option (List KnowledgeSource) := none
  knowledgeFile : Option String := none
  ragIndexDir : Option String := none
deriving DecidableEq

/-- `createClone`: the generated `randomUUID` id and api key are passed
in, `Date.now()` as `now`. -/
def createClone (st : State) (id apiKey : String) (now : Nat)
    (p : CreateCloneParams) : State × CloneRecord :=
  let clone : CloneRecord := {
    id := id
    name := p.name
    modelId := p.modelId
    jobId := p.jobId
    status := p.status.getD CloneStatus.training
    datasetCount := p.datasetCount
    datasetId := p.datasetId
    messengers := some []
    apiKey := some apiKey
    isRunning := some false
    startedAt := some (p.startedAt.getD now)
    createdAt := now
    updatedAt := now
    knowledgeCount := p.knowledgeCount
    knowledgeSources := p.knowledgeSources
    knowledgeFile := p.knowledgeFile
    ragIndexDir := p.ragIndexDir }
  (Js.set st id clone, clone)

structure CloneUpdate where
  status : Option CloneStatus := none
  updatedAt : Option Nat := none
  name : Option String := none
  isRunning : Option Bool := none
  messengers : Option (List String) := none
  datasetCount : Option Nat := none
  datasetId : Option String := none
  knowledgeCount : Option Nat := none
  knowledgeSources : Option (List KnowledgeSource) := none
  knowledgeFile : Option String := none
  ragIndexDir : Option String := none
deriving DecidableEq

/-- The guard chain in the body of `updateClone`. -/
def applyCloneUpdate (c : CloneRecord) (d : CloneUpdate) (now : Nat) : CloneRecord :=
  let c := match d.status with | some s => { c with status := s } | none => c
  let c := if truthyStr d.name then { c with name := d.name.getD c.name } else c
  let c := match d.isRunning with | some b => { c with isRunning := some b } | none => c
  let c := match d.messengers with | some ms => { c with messengers := some ms } | none => c
  let c := match d.datasetCount with | some n => { c with datasetCount := some n } | none => c
  let c := if truthyStr d.datasetId then { c with datasetId := d.datasetId } else c
  let c := match d.knowledgeCount with | some n => { c with knowledgeCount := some n } | none => c
  let c := match d.knowledgeSources with | some s => { c with knowledgeSources := some s } | none => c
  let c := match d.knowledgeFile with | some f => { c with knowledgeFile := some f } | none => c
  let c := match d.ragIndexDir with | some r => { c with ragIndexDir := some r } | none => c
  { c with updatedAt := d.updatedAt.getD now }

def updateClone (st : State) (id : String) (d : CloneUpdate) (now : Nat) : State :=
  match Js.get st id with
  | none => st
  | some c => Js.set st id (applyCloneUpdate c d now)

def getClone (st : State) (id : String) : Option CloneRecord :=
  Js.get st id

/-- `listClones`: the records in map insertion order. -/
def listClones (st : State) : List CloneRecord :=
  st.map Prod.snd

/-- `loadClonesFromDisk` on the parsed file content: every loaded clone
gets `isRunning = false`. -/
def loadClonesFromDisk (parsed : List (String × CloneRecord)) : State :=
  parsed.map (fun p => (p.1, { p.2 with isRunning := some false }))

end CloneStore

/-! ## Integration store (`src/lib/integrationStore.ts`) -/

inductive IntegrationPlatform
  | telegram
  | whatsapp
  | google
  | slack
deriving DecidableEq

structure IntegrationConfig where
  platform : IntegrationPlatform
  active : Bool
  token : Option String
  updatedAt : Nat
deriving DecidableEq

structure CloneIntegrations where
  cloneId : String
  integrations : List IntegrationConfig
deriving DecidableEq

namespace IntegrationStore

/-- The parsed content of `integrations.json`: clone id to record. -/
abbrev Store := List (String × CloneIntegrations)

/-- The partial update argument of `upsertIntegration`. -/
structure UpsertData where
  active : Option Bool := none
  token : Option String := none
deriving DecidableEq

/-- The `read` part of `getIntegrations`, inside the lock. -/
def getIntegrationsPure (store : Store) (cloneId : String) : List IntegrationConfig :=
  match Js.get store cloneId with
  | some r => r.integrations
  | none => []

/-- The list edit inside `upsertIntegration`: update the first entry with
the platform in place, or push a fresh entry at the end. -/
def upsertEntry (l : List IntegrationConfig) (platform : IntegrationPlatform)
    (d : UpsertData) (now : Nat) : List IntegrationConfig :=
  match l with
  | [] => [{ platform := platform, active := d.active.getD false,
             token := d.token, updatedAt := now }]
  | i :: rest =>
    if i.platform = platform then
      { i with active := d.active.getD i.active,
               token := if d.token.isSome then d.token else i.token,
               updatedAt := now } :: rest
    else
      i :: upsertEntry rest platform d now

/-- The read-modify-write cycle of `upsertIntegration`, inside the lock:
returns the new store content and the returned integration list. -/
def upsertBody (cloneId : String) (platform : IntegrationPlatform)
    (d : UpsertData) (now : Nat) (store : Store) :
    Store × List IntegrationConfig :=
  let record := (Js.get store cloneId).getD { cloneId := cloneId, integrations := [] }
  let newIntegrations := upsertEntry record.integrations platform d now
  let record2 := { record with integrations := newIntegrations }
  (Js.set store cloneId record2, newIntegrations)

/-- The read-modify-write cycle of `setIntegrations`, inside the lock. -/
def setIntegrationsBody (cloneId : String) (l : List IntegrationConfig)
    (now : Nat) (store : Store) : Store × List IntegrationConfig :=
  let stamped := l.map (fun i => { i with updatedAt := now })
  (Js.set store cloneId { cloneId := cloneId, integrations := stamped }, stamped)

/-! ### The `SimpleMutex` of `integrationStore.ts` as a state machine.

`acquire` resolves immediately when the mutex is free and otherwise
queues the caller (`this.queue.push(tryAcquire)`); `release` shifts the
queue and hands the lock to the front waiter synchronously.  The two
ghost fields record the order in which callers arrived and the order in
which they were granted the lock. -/

structure MutexState where
  locked : Bool
  queue : List Nat
  granted : List Nat
  arrivals : List Nat
deriving DecidableEq

inductive MutexEvent
  | arrive (t : Nat)
  | release
deriving DecidableEq

def mutexInit : MutexState :=
  { locked := false, queue := [], granted := [], arrivals := [] }

def mutexStep (s : MutexState) (e : MutexEvent) : MutexState :=
  match e with
  | MutexEvent.arrive t =>
    if s.locked then
      { s with queue := s.queue ++ [t], arrivals := s.arrivals ++ [t] }
    else
      { s with locked := true, granted := s.granted ++ [t],
               arrivals := s.arrivals ++ [t] }
  | MutexEvent.release =>
    match s.queue with
    | [] => { s with locked := false }
    | t :: rest =>
      { s with locked := true, queue := rest, granted := s.granted ++ [t] }

def mutexRun (es : List MutexEvent) : MutexState :=
  es.foldl mutexStep mutexInit

/-- One serialized store operation: `const release = await mutex.acquire();
try { body } finally { release() }` — the release is applied on the ok
path and on the exception path alike. -/
def protectedOp (tid : Nat) (body : Store → Except String Store)
    (p : MutexState × Store) : MutexState × Store :=
  let ms := mutexStep p.1 (MutexEvent.arrive tid)
  match body p.2 with
  | Except.ok st2 => (mutexStep ms MutexEvent.release, st2)
  | Except.error _ => (mutexStep ms MutexEvent.release, p.2)

def runProtectedOps (tasks : List (Nat × (Store → Except String Store)))
    (p : MutexState × Store) : MutexState × Store :=
  tasks.foldl (fun acc task => protectedOp task.1 task.2 acc) p

end IntegrationStore

/-! ## Supabase-backed repositories
(`src/lib/repositories/jobRepository.ts`,
`src/lib/repositories/cloneRepository.ts`)

The database tables `training_jobs` and `clones` are embedded as
id-to-record maps.  The two ghost fields `stagesRun` and `statusWrites`
record, respectively, which external stages the pipeline spawned and
which job status values were written, in order; they only observe the
execution, they never influence it. -/

namespace Repo

structure DB where
  jobs : List (String × TrainingJob)
  clones : List (String × CloneRecord)
  stagesRun : List String
  statusWrites : List (String × JobStatus)
deriving DecidableEq

/-- The partial update argument of `updateJobRepo`. -/
structure JobRepoUpdate where
  status : Option JobStatus := none
  logs : Option (List String) := none
  error : Option String := none
  adapterDir : Option String := none
  processedDir : Option String := none
  knowledgeFile : Option String := none
  ragIndexDir : Option String := none
  knowledgeCount : Option Nat := none
  knowledgeSources : Option (List KnowledgeSource) := none
deriving DecidableEq

/-- The `mappedUpdates` guard chain of `updateJobRepo`: `updated_at` is
always set to `Date.now()`; string fields are guarded by truthiness,
`knowledgeCount` by `!== undefined`. -/
def applyJobRepoUpdate (j : TrainingJob) (u : JobRepoUpdate) (now : Nat) : TrainingJob :=
  let j := match u.status with | some s => { j with status := s } | none => j
  let j := match u.logs with | some ls => { j with logs := ls } | none => j
  let j := if truthyStr u.error then { j with error := u.error } else j
  let j := if truthyStr u.adapterDir then { j with adapterDir := u.adapterDir } else j
  let j := if truthyStr u.processedDir then { j with processedDir := u.processedDir } else j
  let j := if truthyStr u.knowledgeFile then { j with knowledgeFile := u.knowledgeFile } else j
  let j := if truthyStr u.ragIndexDir then { j with ragIndexDir := u.ragIndexDir } else j
  let j := match u.knowledgeCount with | some c => { j with knowledgeCount := some c } | none => j
  let j := match u.knowledgeSources with | some s => { j with knowledgeSources := some s } | none => j
  { j with updatedAt := now }

/-- `updateJobRepo`: a database `update ... eq(id)` touching one row;
with no matching row nothing changes.  A status write on an existing row
is recorded in the ghost trace. -/
def updateJobRepo (id : String) (u : JobRepoUpdate) (now : Nat) (db : DB) : DB :=
  match Js.get db.jobs id with
  | none => db
  | some j =>
    { db with
      jobs := Js.set db.jobs id (applyJobRepoUpdate j u now),
      statusWrites := db.statusWrites ++
        (match u.status with | some s => [(id, s)] | none => []) }

/-- `appendLogRepo`: select the row's logs, append the line, write back
with a fresh `updated_at`. -/
def appendLogRepo (id : String) (line : String) (now : Nat) (db : DB) : DB :=
  match Js.get db.jobs id with
  | none => db
  | some j =>
    let j2 := { j with logs := j.logs ++ [line], updatedAt := now }
    { db with jobs := Js.set db.jobs id j2 }

def getJobDB (id : String) (db : DB) : Option TrainingJob :=
  Js.get db.jobs id

/-- The partial update argument of `updateCloneRepo`. -/
structure CloneRepoUpdate where
  status : Option CloneStatus := none
  name : Option String := none
  isRunning : Option Bool := none
  messengers : Option (List String) := none
  datasetCount : Option Nat := none
  datasetId : Option String := none
  knowledgeCount : Option Nat := none
  knowledgeSources : Option (List KnowledgeSource) := none
  knowledgeFile : Option String := none
  ragIndexDir : Option String := none
deriving DecidableEq

/-- The `mappedUpdates` guard chain of `updateCloneRepo`. -/
def applyCloneRepoUpdate (c : CloneRecord) (u : CloneRepoUpdate) (now : Nat) : CloneRecord :=
  let c := match u.status with | some s => { c with status := s } | none => c
  let c := if truthyStr u.name then { c with name := u.name.getD c.name } else c
  let c := match u.isRunning with | some b => { c with isRunning := some b } | none => c
  let c := match u.messengers with | some ms => { c with messengers := some ms } | none => c
  let c := match u.datasetCount with | some n => { c with datasetCount := some n } | none => c
  let c := if truthyStr u.datasetId then { c with datasetId := u.datasetId } else c
  let c := match u.knowledgeCount with | some n => { c with knowledgeCount := some n } | none => c
  let c := match u.knowledgeSources with | some s => { c with knowledgeSources := some s } | none => c
  let c := if truthyStr u.knowledgeFile then { c with knowledgeFile := u.knowledgeFile } else c
  let c := if truthyStr u.ragIndexDir then { c with ragIndexDir := u.ragIndexDir } else c
  { c with updatedAt := now }

def updateCloneRepo (id : String) (u : CloneRepoUpdate) (now : Nat) (db : DB) : DB :=
  match Js.get db.clones id with
  | none => db
  | some c => { db with clones := Js.set db.clones id (applyCloneRepoUpdate c u now) }

def getCloneDB (id : String) (db : DB) : Option CloneRecord :=
  Js.get db.clones id

end Repo

/-! ## Pipeline runner (`src/app/api/training/route.ts`) -/

namespace Pipeline

open Repo

/-- The validated training payload. -/
structure TrainPayload where
  modelId : String
  datasetId : String
  systemPrompt : String
  persona : Option String
deriving DecidableEq

structure KnowledgeStats where
  totalChunks : Nat
  sources : List KnowledgeSource
deriving DecidableEq

/-- The behaviour of the three external stage processes and of the
knowledge file they produce.  Each stage is judged, as in the source,
only by its exit code and its captured output lines. -/
structure PipelineWorld where
  stage1Exit : Nat
  stage1Out : List String
  stage2Exit : Nat
  stage2Out : List String
  stage3Exit : Nat
  stage3Out : List String
  knowledgeStats : KnowledgeStats
deriving DecidableEq

def OUTPUTS_DIR : String := "uploads/jobs"

/-- `runLoggedProcess`: spawn the stage (ghost-recorded by label), stream
every output line into the job's log, then resolve on exit 0 and reject
with `label exited with code N` otherwise. -/
def runLoggedProcess (jobId label : String) (out : List String)
    (exitCode : Nat) (now : Nat) (db : DB) : Except String Unit × DB :=
  let db := { db with stagesRun := db.stagesRun ++ [label] }
  let db := out.foldl (fun d line => appendLogRepo jobId line now d) db
  if exitCode ≠ 0 then
    (Except.error (label ++ " exited with code " ++ toString exitCode), db)
  else
    (Except.ok (), db)

/-- The `catch` block of `runPipeline`: fail the job with the raised
message and propagate `failed` to the linked clone. -/
def pipelineCatch (jobId errMsg : String) (now : Nat) (db : DB) : DB :=
  let db := updateJobRepo jobId
    { status := some JobStatus.failed, error := some errMsg } now db
  match getJobDB jobId db with
  | some failedJob =>
    match failedJob.cloneId with
    | some cid => updateCloneRepo cid { status := some CloneStatus.failed } now db
    | none => db
  | none => db

/-- `runRagIndex` together with its call site: the surrounding
`try`/`catch` makes a stage-2 failure non-fatal. -/
def runRagIndexStep (jobId knowledgeFile ragIndexDir : String)
    (w : PipelineWorld) (now : Nat) (db : DB) : DB :=
  let db := appendLogRepo jobId ("Building RAG index from " ++ knowledgeFile) now db
  let res := runLoggedProcess jobId "rag_index" w.stage2Out w.stage2Exit now db
  match res.1 with
  | Except.error e =>
    appendLogRepo jobId ("RAG index build failed (will continue without RAG): " ++ e) now res.2
  | Except.ok _ =>
    appendLogRepo jobId ("RAG index saved to " ++ ragIndexDir) now res.2

/-- The tail of the success path of `runPipeline`: mark the job succeeded
and propagate `ready` to the linked clone. -/
def finishSuccess (jobId : String) (now : Nat) (db : DB) : DB :=
  let db := updateJobRepo jobId { status := some JobStatus.succeeded } now db
  match getJobDB jobId db with
  | some okJob =>
    match okJob.cloneId with
    | some cid => updateCloneRepo cid { status := some CloneStatus.ready } now db
    | none => db
  | none => db

/-- The post-stage-1 knowledge aggregation write-back: counts and sources
to the job, then mirrored (with the artifact paths) to the linked clone. -/
def knowledgeSyncStep (jobId knowledgeFile ragIndexDir : String)
    (stats : KnowledgeStats) (now : Nat) (db : DB) : DB :=
  let db := updateJobRepo jobId
    { knowledgeCount := some stats.totalChunks,
      knowledgeSources := some stats.sources } now db
  match getJobDB jobId db with
  | some job =>
    match job.cloneId with
    | some cid => updateCloneRepo cid
        { knowledgeCount := some stats.totalChunks,
          knowledgeSources := some stats.sources,
          knowledgeFile := some knowledgeFile,
          ragIndexDir := some ragIndexDir } now db
    | none => db
  | none => db

/-- Everything `runPipeline` does after stage 1 resolved: knowledge
write-back, conditional stage 2 (non-fatal), stage 3 (fatal), then the
success tail. -/
def runPipelineAfterStage1 (jobId knowledgeFile ragIndexDir : String)
    (w : PipelineWorld) (now : Nat) (db : DB) : DB :=
  let stats := w.knowledgeStats
  let db := knowledgeSyncStep jobId knowledgeFile ragIndexDir stats now db
  let db :=
    if stats.totalChunks > 0 then
      runRagIndexStep jobId knowledgeFile ragIndexDir w now db
    else
      appendLogRepo jobId "No knowledge chunks found, skipping RAG index build." now db
  let res3 := runLoggedProcess jobId "train_qlora" w.stage3Out w.stage3Exit now db
  match res3.1 with
  | Except.error e => pipelineCatch jobId e now res3.2
  | Except.ok _ => finishSuccess jobId now res3.2

/-- `runPipeline jobId payload`: the three sequential stages with the
fatal / non-fatal exit-code policy. -/
def runPipeline (jobId : String) (payload : TrainPayload) (w : PipelineWorld)
    (now : Nat) (db : DB) : DB :=
  let jobOutput := OUTPUTS_DIR ++ "/" ++ jobId
  let processedDir := jobOutput ++ "/processed_dataset"
  let knowledgeFile := processedDir ++ "/knowledge.jsonl"
  let ragIndexDir := jobOutput ++ "/rag_index"
  let outputDir := jobOutput ++ "/outputs"
  let adapterDir := outputDir ++ "/lora_adapter"
  let db := updateJobRepo jobId
    { status := some JobStatus.running, adapterDir := some adapterDir,
      processedDir := some processedDir, knowledgeFile := some knowledgeFile,
      ragIndexDir := some ragIndexDir } now db
  let res1 := runLoggedProcess jobId "dataset_pipeline" w.stage1Out w.stage1Exit now db
  match res1.1 with
  | Except.error e => pipelineCatch jobId e now res1.2
  | Except.ok _ => runPipelineAfterStage1 jobId knowledgeFile ragIndexDir w now res1.2

end Pipeline

/-! ## Worker manager (`src/lib/workerManager.ts`)

The manager owns the in-memory `workers` map, the PID breadcrumb files
(`uploads/pids/worker-<cloneId>.pid`, embedded as a cloneId-to-pid map),
and mutates the in-memory clone store.  Process-level actions (fork,
SIGTERM/SIGKILL) are returned as an effect list; liveness of an existing
pid (`process.kill(pid, 0)`) is supplied by an `alive` oracle. -/

inductive WorkerStatus
  | starting
  | running
  | stopped
  | error
deriving DecidableEq

structure WorkerRecord where
  status : WorkerStatus
  lastHeartbeat : Nat
  pid : Nat
deriving DecidableEq

namespace Manager

/-- The environment handed to the forked `clone_worker.js`. -/
structure WorkerEnv where
  cloneId : String
  modelId : String
  adapterDir : String
  ragIndexDir : String
  systemPrompt : String
  integrations : List IntegrationConfig
deriving DecidableEq

inductive Eff
  | spawn (cloneId : String) (pid : Nat) (env : WorkerEnv)
  | sigterm (pid : Nat)
  | sigkill (pid : Nat)
deriving DecidableEq

structure ManagerState where
  workers : List (String × WorkerRecord)
  clones : CloneStore.State
  jobs : JobStore.State
  integrations : IntegrationStore.Store
  pidFiles : List (String × Nat)
deriving DecidableEq

/-- `HEARTBEAT_TIMEOUT_MS`. -/
def HEARTBEAT_TIMEOUT_MS : Nat := 20000

/-- `killProcess`: SIGTERM, escalating to SIGKILL after the grace period
when the process is still alive then. -/
def killProcess (pid : Nat) (aliveAfterGrace : Nat → Bool) : List Eff :=
  Eff.sigterm pid :: (if aliveAfterGrace pid then [Eff.sigkill pid] else [])

inductive StartResult
  | ok (pid : Nat)
  | err (msg : String)
deriving DecidableEq

/-- `startCloneWorker cloneId`: reject when an in-memory record exists;
kill a live orphan named by the breadcrumb; fork the worker (`newPid` is
the pid of the fresh process), write breadcrumb and record, set
`isRunning=true` (and `status="ready"`) on the clone. -/
def startCloneWorker (cloneId : String) (newPid : Nat) (now : Nat)
    (alive : Nat → Bool) (st : ManagerState) :
    StartResult × ManagerState × List Eff :=
  if (Js.get st.workers cloneId).isSome then
    (StartResult.err "Worker already running", st, [])
  else
    let cleaned :=
      match Js.get st.pidFiles cloneId with
      | some existingPid =>
        if alive existingPid then
          ({ st with pidFiles := Js.del st.pidFiles cloneId },
           killProcess existingPid alive)
        else (st, [])
      | none => (st, [])
    let st1 := cleaned.1
    let effs := cleaned.2
    match Js.get st1.clones cloneId with
    | none => (StartResult.err "Clone not found", st1, effs)
    | some clone =>
      let job := Js.get st1.jobs clone.jobId
      let integrations := IntegrationStore.getIntegrationsPure st1.integrations cloneId
      let env : WorkerEnv := {
        cloneId := cloneId
        modelId := clone.modelId
        adapterDir := ((job.map (fun j => j.adapterDir)).join).getD ""
        ragIndexDir := ((job.map (fun j => j.ragIndexDir)).join).getD ""
        systemPrompt := ((job.map (fun j => j.systemPrompt))).getD ""
        integrations := integrations }
      let record : WorkerRecord :=
        { status := WorkerStatus.starting, lastHeartbeat := now, pid := newPid }
      let st2 := { st1 with
        pidFiles := Js.set st1.pidFiles cloneId newPid,
        workers := Js.set st1.workers cloneId record }
      let st3 := { st2 with
        clones := CloneStore.updateClone st2.clones cloneId
          { isRunning := some true, status := some CloneStatus.ready } now }
      (StartResult.ok newPid, st3, effs ++ [Eff.spawn cloneId newPid env])

/-- `stopCloneWorker cloneId`. -/
def stopCloneWorker (cloneId : String) (now : Nat) (alive : Nat → Bool)
    (st : ManagerState) : StartResult × ManagerState × List Eff :=
  match Js.get st.workers cloneId with
  | none =>
    match Js.get st.pidFiles cloneId with
    | some pid =>
      if alive pid then
        (StartResult.ok pid,
         { st with pidFiles := Js.del st.pidFiles cloneId,
                   clones := CloneStore.updateClone st.clones cloneId
                     { isRunning := some false } now },
         killProcess pid alive)
      else (StartResult.err "Worker not running", st, [])
    | none => (StartResult.err "Worker not running", st, [])
  | some rec =>
    (StartResult.ok rec.pid,
     { st with workers := Js.del st.workers cloneId,
               pidFiles := Js.del st.pidFiles cloneId,
               clones := CloneStore.updateClone st.clones cloneId
                 { isRunning := some false } now },
     [Eff.sigterm rec.pid])

/-- One entry of the heartbeat monitor loop body: a `running` worker
whose last heartbeat is older than the timeout is marked `error` and its
clone `failed`; the process is deliberately not killed. -/
def tickStep (now : Nat) (s : ManagerState) (p : String × WorkerRecord) : ManagerState :=
  if p.2.status = WorkerStatus.running ∧
      HEARTBEAT_TIMEOUT_MS < now - p.2.lastHeartbeat then
    { s with
      workers := Js.set s.workers p.1 { p.2 with status := WorkerStatus.error },
      clones := CloneStore.updateClone s.clones p.1
        { status := some CloneStatus.failed, isRunning := some false } now }
  else s

/-- One tick of `startHeartbeatMonitoring`s `setInterval` callback.  It
emits no process effects: the monitor never kills a worker. -/
def monitorTick (now : Nat) (st : ManagerState) : ManagerState × List Eff :=
  (st.workers.foldl (tickStep now) st, [])

inductive WorkerMsg
  | heartbeat
  | ready
  | errorMsg
deriving DecidableEq

/-- The `child.on("message")` handler attached at start: a heartbeat
moves the record (back) to `running` and refreshes `lastHeartbeat`;
`ready` promotes to `running`; an error message marks the record `error`
and fails the clone. -/
def handleWorkerMessage (cloneId : String) (msg : WorkerMsg) (now : Nat)
    (st : ManagerState) : ManagerState :=
  match Js.get st.workers cloneId with
  | none => st
  | some record =>
    match msg with
    | WorkerMsg.heartbeat =>
      let r2 := { record with status := WorkerStatus.running, lastHeartbeat := now }
      { st with workers := Js.set st.workers cloneId r2 }
    | WorkerMsg.ready =>
      let r2 := { record with status := WorkerStatus.running }
      { st with workers := Js.set st.workers cloneId r2 }
    | WorkerMsg.errorMsg =>
      let r2 := { record with status := WorkerStatus.error }
      let d : CloneStore.CloneUpdate :=
        { status := some CloneStatus.failed, isRunning := some false }
      { st with workers := Js.set st.workers cloneId r2,
                clones := CloneStore.updateClone st.clones cloneId d now }

/-- The `child.on("exit")` handler: drop record and breadcrumb, clear
`isRunning`. -/
def handleWorkerExit (cloneId : String) (now : Nat) (st : ManagerState) : ManagerState :=
  { st with
    workers := Js.del st.workers cloneId,
    pidFiles := Js.del st.pidFiles cloneId,
    clones := CloneStore.updateClone st.clones cloneId
      { isRunning := some false } now }

/-- The `child.on("error")` handler. -/
def handleWorkerError (cloneId : String) (now : Nat) (st : ManagerState) : ManagerState :=
  match Js.get st.workers cloneId with
  | none => st
  | some record =>
    let r2 := { record with status := WorkerStatus.error }
    let d : CloneStore.CloneUpdate :=
      { status := some CloneStatus.failed, isRunning := some false }
    { st with workers := Js.set st.workers cloneId r2,
              clones := CloneStore.updateClone st.clones cloneId d now }

end Manager

/-! ## Sample records used by concrete witnesses and counterexamples -/

def sampleJob : TrainingJob :=
  { id := "j1", modelId := "m", datasetPath := "d", systemPrompt := "",
    persona := none, cloneId := some "c1", cloneName := none,
    adapterDir := none, processedDir := none, knowledgeFile := none,
    ragIndexDir := none, knowledgeCount := none, knowledgeSources := none,
    createdAt := 0, updatedAt := 0, status := JobStatus.queued,
    logs := [], error := none }

def sampleClone : CloneRecord :=
  { id := "c1", name := "n", modelId := "m", jobId := "j1",
    status := CloneStatus.training, datasetCount := none, datasetId := none,
    messengers := some [], apiKey := some "k", isRunning := some false,
    startedAt := none, createdAt := 0, updatedAt := 0,
    knowledgeCount := none, knowledgeSources := none,
    knowledgeFile := none, ragIndexDir := none }

def sampleJobParams : JobStore.CreateJobParams :=
  { modelId := "m", datasetPath := "d", systemPrompt := "" }

def sampleCloneParams : CloneStore.CreateCloneParams :=
  { name := "n", modelId := "m", jobId := "j1" }

/-- Helper for refuting the recency-order claim: a job store holding two
jobs created at times 1 and 2 (in that order). -/
def twoJobStore : JobStore.State :=
  (JobStore.createJob (JobStore.createJob [] "a" 1 sampleJobParams).1
    "b" 2 sampleJobParams).1

/-- `sampleJob` as loaded after being persisted in `running`. -/
def interruptedJob : TrainingJob :=
  { sampleJob with
    status := JobStatus.failed
    error := some "Training interrupted by server restart" }

/-- `sampleJob` persisted in `running`. -/
def runningJob : TrainingJob :=
  { sampleJob with status := JobStatus.running }

/-- Helper fact: sanitization never leaves a job in `running`. -/
theorem sanitizeLoadedJob_status_ne_running (j : TrainingJob) :
    (JobStore.sanitizeLoadedJob j).status ≠ JobStatus.running := by
  unfold JobStore.sanitizeLoadedJob
  by_cases h : j.status = JobStatus.running
  · simp [h]
  · simp [h]

/-- Claim C3: on process start, every persisted Job whose status was
`running` is loaded as `failed` with the standard interrupted-by-restart
error (so no loaded job is ever `running`), and every loaded Clone has
`isRunning = false` regardless of the persisted value. -/
theorem C3_restart_sanitization :
    (∀ (parsed : List (String × TrainingJob)) (id : String) (j : TrainingJob),
      (id, j) ∈ parsed → j.status = JobStatus.running →
      (id, { j with status := JobStatus.failed, error := some "Training interrupted by server restart" })
        ∈ JobStore.loadJobsFromDisk parsed)
    ∧ (∀ (parsed : List (String × TrainingJob)) (id : String) (j : TrainingJob),
      (id, j) ∈ JobStore.loadJobsFromDisk parsed → j.status ≠ JobStatus.running)
    ∧ (∀ (parsedClones : List (String × CloneRecord)) (id : String) (c : CloneRecord),
      (id, c) ∈ CloneStore.loadClonesFromDisk parsedClones → c.isRunning = some false) := by
  refine ⟨?_, ?_, ?_⟩
  · intro parsed id j hmem hrun
    have h2 := List.mem_map_of_mem (fun p => (p.1, JobStore.sanitizeLoadedJob p.2)) hmem
    simpa [JobStore.loadJobsFromDisk, JobStore.sanitizeLoadedJob, hrun] using h2
  · intro parsed id j hmem
    unfold JobStore.loadJobsFromDisk at hmem
    obtain ⟨p, _, heq⟩ := List.mem_map.mp hmem
    have hj : j = JobStore.sanitizeLoadedJob p.2 := by
      have := congrArg Prod.snd heq
      simpa using this.symm
    rw [hj]
    exact sanitizeLoadedJob_status_ne_running p.2
  · intro parsedClones id c hmem
    unfold CloneStore.loadClonesFromDisk at hmem
    obtain ⟨p, _, heq⟩ := List.mem_map.mp hmem
    have hc : c = { p.2 with isRunning := some false } := by
      have := congrArg Prod.snd heq
      simpa using this.symm
    rw [hc]

/-- Witness for C3 at a concrete store: a job persisted as `running` is
loaded as `failed` with the standard error. -/
theorem C3_restart_sanitization_witness :
    ("j1", interruptedJob) ∈ JobStore.loadJobsFromDisk [("j1", runningJob)]
    ∧ (∀ id c, (id, c) ∈ CloneStore.loadClonesFromDisk
        [("c1", { sampleClone with isRunning := some true })] → c.isRunning = some false) := by
  constructor
  · have h := C3_restart_sanitization.1 [("j1", runningJob)] "j1" runningJob
      (by simp) rfl
    simpa [interruptedJob, runningJob] using h
  · intro id c hmem
    exact C3_restart_sanitization.2.2 _ id c hmem

/-- `Map.set` on a fresh key appends the entry at the end. -/
theorem set_eq_append_of_get_none {α : Type} (l : List (String × α)) (k : String)
    (v : α) (h : Js.get l k = none) : Js.set l k v = l ++ [(k, v)] := by
  induction l with
  | nil => simp [Js.set]
  | cons hd tl ih =>
    obtain ⟨k2, v2⟩ := hd
    by_cases h2 : k2 = k
    · simp [Js.get, h2] at h
    · simp only [Js.get, if_neg h2] at h
      simp [Js.set, if_neg h2, ih h]

/-- Claim C9 counterexample: `listJobs` does not return the records most
recently created or updated first.  In a store holding a job created at
time 1 and then a job created at time 2, the list comes back oldest
first (`updatedAt` values `[1, 2]`), which is not descending recency. -/
theorem C9_recency_counterexample :
    ((JobStore.listJobs twoJobStore).map (fun j => j.updatedAt) = [1, 2])
    ∧ ¬ ((JobStore.listJobs twoJobStore).map (fun j => j.updatedAt)).Chain'
        (fun a b => b ≤ a) := by
  have h1 : (JobStore.listJobs twoJobStore).map (fun j => j.updatedAt) = [1, 2] := rfl
  refine ⟨h1, ?_⟩
  rw [h1]
  simp [List.chain'_cons, List.chain'_singleton]

/-- Claim C9 (amended): `list(kind)` returns the stored records in map
insertion order — creation appends the new record at the end (so the list
is oldest-creation first), and `update`/`appendLog` keep every record in
place (the key sequence is unchanged) — for both the Job and the Clone
store. -/
theorem C9_list_insertion_order :
    (∀ (st : JobStore.State) (id : String) (now : Nat) (p : JobStore.CreateJobParams),
      Js.get st id = none →
      JobStore.listJobs (JobStore.createJob st id now p).1
        = JobStore.listJobs st ++ [(JobStore.createJob st id now p).2])
    ∧ (∀ (st : JobStore.State) (id : String) (d : JobStore.JobUpdate) (now : Nat),
      Js.keys (JobStore.updateJob st id d now) = Js.keys st)
    ∧ (∀ (st : JobStore.State) (id line : String) (now : Nat),
      Js.keys (JobStore.appendLog st id line now) = Js.keys st)
    ∧ (∀ (st : CloneStore.State) (id apiKey : String) (now : Nat)
        (p : CloneStore.CreateCloneParams),
      Js.get st id = none →
      CloneStore.listClones (CloneStore.createClone st id apiKey now p).1
        = CloneStore.listClones st ++ [(CloneStore.createClone st id apiKey now p).2])
    ∧ (∀ (st : CloneStore.State) (id : String) (d : CloneStore.CloneUpdate) (now : Nat),
      Js.keys (CloneStore.updateClone st id d now) = Js.keys st) := by
  refine ⟨?_, ?_, ?_, ?_, ?_⟩
  · intro st id now p h
    simp [JobStore.createJob, JobStore.listJobs, set_eq_append_of_get_none st id _ h]
  · intro st id d now
    unfold JobStore.updateJob
    cases hg : Js.get st id with
    | none => rfl
    | some j => exact Js.keys_set_of_mem st id _ (by rw [hg]; rfl)
  · intro st id line now
    unfold JobStore.appendLog
    cases hg : Js.get st id with
    | none => rfl
    | some j => exact Js.keys_set_of_mem st id _ (by rw [hg]; rfl)
  · intro st id apiKey now p h
    simp [CloneStore.createClone, CloneStore.listClones,
      set_eq_append_of_get_none st id _ h]
  · intro st id d now
    unfold CloneStore.updateClone
    cases hg : Js.get st id with
    | none => rfl
    | some c => exact Js.keys_set_of_mem st id _ (by rw [hg]; rfl)

/-- Witness for C9 (amended) at concrete stores. -/
theorem C9_list_insertion_order_witness :
    JobStore.listJobs (JobStore.createJob [("j1", sampleJob)] "j2" 9 sampleJobParams).1
      = JobStore.listJobs [("j1", sampleJob)]
        ++ [(JobStore.createJob [("j1", sampleJob)] "j2" 9 sampleJobParams).2]
    ∧ Js.keys (CloneStore.updateClone [("c1", sampleClone)] "c1"
        { status := some CloneStatus.ready } 3) = Js.keys [("c1", sampleClone)] := by
  constructor
  · exact C9_list_insertion_order.1 [("j1", sampleJob)] "j2" 9 sampleJobParams (by decide)
  · exact C9_list_insertion_order.2.2.2.2 [("c1", sampleClone)] "c1"
      { status := some CloneStatus.ready } 3

/-- A clone currently in status `failed`, for exercising `start`. -/
def failedClone : CloneRecord :=
  { sampleClone with status := CloneStatus.failed }

/-- A manager state holding one stopped clone in status `failed` and no
workers, breadcrumbs, jobs or integrations. -/
def mgr0 : Manager.ManagerState :=
  { workers := [], clones := [("c1", failedClone)], jobs := [],
    integrations := [], pidFiles := [] }

/-- Claim C4 counterexample: a successful `startCloneWorker` does not
leave the clone's `status` unchanged.  Starting a worker for a clone in
status `failed` succeeds and flips the status to `ready`. -/
theorem C4_status_changed_counterexample :
    (Manager.startCloneWorker "c1" 42 1000 (fun _ => false) mgr0).1
      = Manager.StartResult.ok 42
    ∧ failedClone.status = CloneStatus.failed
    ∧ (Js.get (Manager.startCloneWorker "c1" 42 1000 (fun _ => false) mgr0).2.1.clones
        "c1").map (fun c => c.status) = some CloneStatus.ready := by
  refine ⟨rfl, rfl, rfl⟩

/-- Claim C4 (amended): a successful `start(cloneId)` sets the clone's
`isRunning` to `true`, but it also sets the clone's `status` to `ready`
and refreshes `updatedAt`; every other field of the Clone record is
unchanged. -/
theorem C4_start_effect_on_clone (st : Manager.ManagerState) (cloneId : String)
    (newPid now : Nat) (alive : Nat → Bool) (c : CloneRecord)
    (hw : Js.get st.workers cloneId = none)
    (hc : Js.get st.clones cloneId = some c) :
    (Manager.startCloneWorker cloneId newPid now alive st).1
      = Manager.StartResult.ok newPid
    ∧ Js.get (Manager.startCloneWorker cloneId newPid now alive st).2.1.clones cloneId
      = some { c with isRunning := some true, status := CloneStatus.ready,
                      updatedAt := now } := by
  have happly : CloneStore.applyCloneUpdate c
      { isRunning := some true, status := some CloneStatus.ready } now
      = { c with isRunning := some true, status := CloneStatus.ready,
                 updatedAt := now } := by
    simp [CloneStore.applyCloneUpdate, truthyStr]
  cases hp : Js.get st.pidFiles cloneId with
  | none =>
    simp [Manager.startCloneWorker, hw, hp, hc, CloneStore.updateClone, happly,
      Js.get_set_self]
  | some existingPid =>
    by_cases ha : alive existingPid
    · simp [Manager.startCloneWorker, hw, hp, ha, hc, CloneStore.updateClone, happly,
        Js.get_set_self]
    · simp [Manager.startCloneWorker, hw, hp, ha, hc, CloneStore.updateClone, happly,
        Js.get_set_self]

/-- Witness for C4 (amended) at a concrete state. -/
theorem C4_start_effect_on_clone_witness :
    (Manager.startCloneWorker "c1" 42 1000 (fun _ => false) mgr0).1
      = Manager.StartResult.ok 42
    ∧ Js.get (Manager.startCloneWorker "c1" 42 1000 (fun _ => false) mgr0).2.1.clones "c1"
      = some { failedClone with isRunning := some true, status := CloneStatus.ready,
                                updatedAt := 1000 } :=
  C4_start_effect_on_clone mgr0 "c1" 42 1000 (fun _ => false) failedClone rfl rfl

/-- A worker record as left behind by a heartbeat timeout. -/
def erroredWorker : WorkerRecord :=
  { status := WorkerStatus.error, lastHeartbeat := 500, pid := 42 }

/-- A manager state holding one timed-out worker whose clone has already
been failed by the monitor. -/
def mgrTimedOut : Manager.ManagerState :=
  { workers := [("c1", erroredWorker)], clones := [("c1", failedClone)],
    jobs := [], integrations := [], pidFiles := [("c1", 42)] }

/-- Claim C10: the in-memory worker `error` state is not terminal for
heartbeats.  A heartbeat received while the record is in `error` puts the
record back to `running` with a fresh `lastHeartbeat`, and leaves the
clone store untouched: the linked Clone keeps `status = failed` and
`isRunning = false`. -/
theorem C10_heartbeat_recovers_after_error (st : Manager.ManagerState)
    (cloneId : String) (r : WorkerRecord) (c : CloneRecord) (now : Nat)
    (hw : Js.get st.workers cloneId = some r)
    (hr : r.status = WorkerStatus.error)
    (hc : Js.get st.clones cloneId = some c)
    (hcs : c.status = CloneStatus.failed)
    (hci : c.isRunning = some false) :
    Js.get (Manager.handleWorkerMessage cloneId Manager.WorkerMsg.heartbeat now st).workers
        cloneId = some { r with status := WorkerStatus.running, lastHeartbeat := now }
    ∧ (Manager.handleWorkerMessage cloneId Manager.WorkerMsg.heartbeat now st).clones
        = st.clones
    ∧ (Js.get (Manager.handleWorkerMessage cloneId Manager.WorkerMsg.heartbeat now
        st).clones cloneId).map (fun x => x.status) = some CloneStatus.failed
    ∧ (Js.get (Manager.handleWorkerMessage cloneId Manager.WorkerMsg.heartbeat now
        st).clones cloneId).map (fun x => x.isRunning) = some (some false) := by
  refine ⟨?_, ?_, ?_, ?_⟩
  · simp [Manager.handleWorkerMessage, hw, Js.get_set_self]
  · simp [Manager.handleWorkerMessage, hw]
  · simp [Manager.handleWorkerMessage, hw, hc, hcs]
  · simp [Manager.handleWorkerMessage, hw, hc, hci]

/-- Witness for C10 at a concrete post-timeout state. -/
theorem C10_heartbeat_recovers_after_error_witness :
    Js.get (Manager.handleWorkerMessage "c1" Manager.WorkerMsg.heartbeat 600
        mgrTimedOut).workers "c1"
      = some { erroredWorker with status := WorkerStatus.running, lastHeartbeat := 600 }
    ∧ (Manager.handleWorkerMessage "c1" Manager.WorkerMsg.heartbeat 600
        mgrTimedOut).clones = mgrTimedOut.clones
    ∧ (Js.get (Manager.handleWorkerMessage "c1" Manager.WorkerMsg.heartbeat 600
        mgrTimedOut).clones "c1").map (fun x => x.status) = some CloneStatus.failed
    ∧ (Js.get (Manager.handleWorkerMessage "c1" Manager.WorkerMsg.heartbeat 600
        mgrTimedOut).clones "c1").map (fun x => x.isRunning) = some (some false) :=
  C10_heartbeat_recovers_after_error mgrTimedOut "c1" erroredWorker failedClone 600
    rfl rfl rfl rfl rfl

/-- Companion to `Js.not_mem_keys_of_get_eq_none`. -/
theorem get_isSome_of_mem_keys {α : Type} (l : List (String × α)) (k : String)
    (h : k ∈ Js.keys l) : (Js.get l k).isSome := by
  cases hg : Js.get l k with
  | none => exact absurd h (Js.not_mem_keys_of_get_eq_none l k hg)
  | some v => rfl

/-- `updateClone` on one id leaves every other id's record alone. -/
theorem updateClone_get_ne (st : CloneStore.State) (k2 k : String)
    (d : CloneStore.CloneUpdate) (now : Nat) (h : k2 ≠ k) :
    Js.get (CloneStore.updateClone st k2 d now) k = Js.get st k := by
  unfold CloneStore.updateClone
  cases hg : Js.get st k2 with
  | none => rfl
  | some c => exact Js.get_set_ne st k2 k _ h

/-- One monitor step keeps the key set of the worker map. -/
theorem tickStep_workers_keys (now : Nat) (s : Manager.ManagerState)
    (p : String × WorkerRecord) (h : p.1 ∈ Js.keys s.workers) :
    Js.keys (Manager.tickStep now s p).workers = Js.keys s.workers := by
  unfold Manager.tickStep
  split
  · exact Js.keys_set_of_mem _ _ _ (get_isSome_of_mem_keys _ _ h)
  · rfl

/-- The monitor fold keeps the key set of the worker map. -/
theorem tickFold_workers_keys (now : Nat) (l : List (String × WorkerRecord))
    (s : Manager.ManagerState) (h : ∀ p ∈ l, p.1 ∈ Js.keys s.workers) :
    Js.keys (l.foldl (Manager.tickStep now) s).workers = Js.keys s.workers := by
  induction l generalizing s with
  | nil => rfl
  | cons hd tl ih =>
    rw [List.foldl_cons]
    have h1 : hd.1 ∈ Js.keys s.workers := h hd (List.mem_cons_self hd tl)
    have hkeys := tickStep_workers_keys now s hd h1
    rw [ih (Manager.tickStep now s hd)
      (fun p hp => by rw [hkeys]; exact h p (List.mem_cons_of_mem _ hp)), hkeys]

/-- One monitor step touches only the entry (worker and clone) of its own
clone id. -/
theorem tickStep_get_ne (now : Nat) (s : Manager.ManagerState)
    (p : String × WorkerRecord) (k : String) (h : p.1 ≠ k) :
    Js.get (Manager.tickStep now s p).workers k = Js.get s.workers k
    ∧ Js.get (Manager.tickStep now s p).clones k = Js.get s.clones k := by
  unfold Manager.tickStep
  split
  · exact ⟨Js.get_set_ne _ _ _ _ h, updateClone_get_ne _ _ _ _ _ h⟩
  · exact ⟨rfl, rfl⟩

/-- The monitor fold over entries of other clone ids touches neither the
given id's worker nor its clone. -/
theorem tickFold_get_ne (now : Nat) (l : List (String × WorkerRecord))
    (s : Manager.ManagerState) (k : String) (h : ∀ p ∈ l, p.1 ≠ k) :
    Js.get (l.foldl (Manager.tickStep now) s).workers k = Js.get s.workers k
    ∧ Js.get (l.foldl (Manager.tickStep now) s).clones k = Js.get s.clones k := by
  induction l generalizing s with
  | nil => exact ⟨rfl, rfl⟩
  | cons hd tl ih =>
    rw [List.foldl_cons]
    have h1 := tickStep_get_ne now s hd k (h hd (List.mem_cons_self hd tl))
    have h2 := ih (Manager.tickStep now s hd) (fun p hp => h p (List.mem_cons_of_mem _ hp))
    exact ⟨h2.1.trans h1.1, h2.2.trans h1.2⟩

/-- On the success path `start` inserts exactly the fresh record under the
clone id. -/
theorem startCloneWorker_success_workers (st : Manager.ManagerState)
    (cloneId : String) (newPid now : Nat) (alive : Nat → Bool) (c : CloneRecord)
    (hw : Js.get st.workers cloneId = none)
    (hc : Js.get st.clones cloneId = some c) :
    (Manager.startCloneWorker cloneId newPid now alive st).2.1.workers
      = Js.set st.workers cloneId
          { status := WorkerStatus.starting, lastHeartbeat := now, pid := newPid } := by
  cases hp : Js.get st.pidFiles cloneId with
  | none => simp [Manager.startCloneWorker, hw, hp, hc]
  | some existingPid =>
    by_cases ha : alive existingPid
    · simp [Manager.startCloneWorker, hw, hp, ha, hc]
    · simp [Manager.startCloneWorker, hw, hp, ha, hc]

/-- The worker map after `start` is the old one or the old one with one
entry set. -/
theorem startCloneWorker_workers_shape (st : Manager.ManagerState)
    (cloneId : String) (newPid now : Nat) (alive : Nat → Bool) :
    (Manager.startCloneWorker cloneId newPid now alive st).2.1.workers = st.workers
    ∨ ∃ r, (Manager.startCloneWorker cloneId newPid now alive st).2.1.workers
        = Js.set st.workers cloneId r := by
  cases hw : Js.get st.workers cloneId with
  | some r =>
    left
    simp [Manager.startCloneWorker, hw]
  | none =>
    cases hc : Js.get st.clones cloneId with
    | none =>
      left
      cases hp : Js.get st.pidFiles cloneId with
      | none => simp [Manager.startCloneWorker, hw, hp, hc]
      | some existingPid =>
        by_cases ha : alive existingPid
        · simp [Manager.startCloneWorker, hw, hp, ha, hc]
        · simp [Manager.startCloneWorker, hw, hp, ha, hc]
    | some c =>
      right
      exact ⟨_, startCloneWorker_success_workers st cloneId newPid now alive c hw hc⟩

/-- The worker map after `stop` is the old one or the old one with the
entry removed. -/
theorem stopCloneWorker_workers_shape (st : Manager.ManagerState)
    (cloneId : String) (now : Nat) (alive : Nat → Bool) :
    (Manager.stopCloneWorker cloneId now alive st).2.1.workers = st.workers
    ∨ (Manager.stopCloneWorker cloneId now alive st).2.1.workers
        = Js.del st.workers cloneId := by
  cases hw : Js.get st.workers cloneId with
  | some r =>
    right
    simp [Manager.stopCloneWorker, hw]
  | none =>
    cases hp : Js.get st.pidFiles cloneId with
    | none =>
      left
      simp [Manager.stopCloneWorker, hw, hp]
    | some pid =>
      by_cases ha : alive pid
      · left
        simp [Manager.stopCloneWorker, hw, hp, ha]
      · left
        simp [Manager.stopCloneWorker, hw, hp, ha]

/-- The worker map after a channel message is the old one or the old one
with one entry set. -/
theorem handleWorkerMessage_workers_shape (st : Manager.ManagerState)
    (cloneId : String) (msg : Manager.WorkerMsg) (now : Nat) :
    (Manager.handleWorkerMessage cloneId msg now st).workers = st.workers
    ∨ ∃ r, (Manager.handleWorkerMessage cloneId msg now st).workers
        = Js.set st.workers cloneId r := by
  cases hw : Js.get st.workers cloneId with
  | none =>
    left
    simp [Manager.handleWorkerMessage, hw]
  | some r =>
    right
    cases msg with
    | heartbeat =>
      refine ⟨{ r with status := WorkerStatus.running, lastHeartbeat := now }, ?_⟩
      simp [Manager.handleWorkerMessage, hw]
    | ready =>
      refine ⟨{ r with status := WorkerStatus.running }, ?_⟩
      simp [Manager.handleWorkerMessage, hw]
    | errorMsg =>
      refine ⟨{ r with status := WorkerStatus.error }, ?_⟩
      simp [Manager.handleWorkerMessage, hw]

/-- The worker map after the process error handler. -/
theorem handleWorkerError_workers_shape (st : Manager.ManagerState)
    (cloneId : String) (now : Nat) :
    (Manager.handleWorkerError cloneId now st).workers = st.workers
    ∨ ∃ r, (Manager.handleWorkerError cloneId now st).workers
        = Js.set st.workers cloneId r := by
  cases hw : Js.get st.workers cloneId with
  | none =>
    left
    simp [Manager.handleWorkerError, hw]
  | some r =>
    right
    refine ⟨{ r with status := WorkerStatus.error }, ?_⟩
    simp [Manager.handleWorkerError, hw]

/-- Claim C6: at most one in-memory WorkerRecord exists per clone id.
`start` on a clone with a live record rejects with "Worker already
running", changes nothing and emits no effect (so nothing is spawned);
a successful `start` leaves exactly one record under the clone id; and
every worker-map operation preserves key uniqueness. -/
theorem C6_at_most_one_worker_per_clone :
    (∀ (st : Manager.ManagerState) (cloneId : String) (newPid now : Nat)
        (alive : Nat → Bool) (r : WorkerRecord),
      Js.get st.workers cloneId = some r →
      Manager.startCloneWorker cloneId newPid now alive st
        = (Manager.StartResult.err "Worker already running", st, ([] : List Manager.Eff)))
    ∧ (∀ (st : Manager.ManagerState) (cloneId : String) (newPid now : Nat)
        (alive : Nat → Bool) (c : CloneRecord),
      Js.get st.workers cloneId = none →
      Js.get st.clones cloneId = some c →
      (Js.keys (Manager.startCloneWorker cloneId newPid now alive st).2.1.workers).count
        cloneId = 1)
    ∧ (∀ (st : Manager.ManagerState) (cloneId : String) (newPid now : Nat)
        (alive : Nat → Bool),
      (Js.keys st.workers).Nodup →
      (Js.keys (Manager.startCloneWorker cloneId newPid now alive st).2.1.workers).Nodup)
    ∧ (∀ (st : Manager.ManagerState) (cloneId : String) (now : Nat) (alive : Nat → Bool),
      (Js.keys st.workers).Nodup →
      (Js.keys (Manager.stopCloneWorker cloneId now alive st).2.1.workers).Nodup)
    ∧ (∀ (st : Manager.ManagerState) (now : Nat),
      (Js.keys st.workers).Nodup →
      (Js.keys (Manager.monitorTick now st).1.workers).Nodup)
    ∧ (∀ (st : Manager.ManagerState) (cloneId : String) (msg : Manager.WorkerMsg) (now : Nat),
      (Js.keys st.workers).Nodup →
      (Js.keys (Manager.handleWorkerMessage cloneId msg now st).workers).Nodup)
    ∧ (∀ (st : Manager.ManagerState) (cloneId : String) (now : Nat),
      (Js.keys st.workers).Nodup →
      (Js.keys (Manager.handleWorkerExit cloneId now st).workers).Nodup)
    ∧ (∀ (st : Manager.ManagerState) (cloneId : String) (now : Nat),
      (Js.keys st.workers).Nodup →
      (Js.keys (Manager.handleWorkerError cloneId now st).workers).Nodup) := by
  refine ⟨?_, ?_, ?_, ?_, ?_, ?_, ?_, ?_⟩
  · intro st cloneId newPid now alive r hw
    simp [Manager.startCloneWorker, hw]
  · intro st cloneId newPid now alive c hw hc
    rw [startCloneWorker_success_workers st cloneId newPid now alive c hw hc,
      Js.keys_set_of_not_mem st.workers cloneId _ hw]
    simp [List.count_append,
      List.count_eq_zero_of_not_mem (Js.not_mem_keys_of_get_eq_none st.workers cloneId hw)]
  · intro st cloneId newPid now alive hnd
    rcases startCloneWorker_workers_shape st cloneId newPid now alive with h | ⟨r, h⟩
    · rw [h]; exact hnd
    · rw [h]; exact Js.nodup_keys_set st.workers cloneId r hnd
  · intro st cloneId now alive hnd
    rcases stopCloneWorker_workers_shape st cloneId now alive with h | h
    · rw [h]; exact hnd
    · rw [h]; exact Js.nodup_keys_del st.workers cloneId hnd
  · intro st now hnd
    have h := tickFold_workers_keys now st.workers st
      (fun p hp => List.mem_map_of_mem Prod.fst hp)
    unfold Manager.monitorTick
    rw [h]
    exact hnd
  · intro st cloneId msg now hnd
    rcases handleWorkerMessage_workers_shape st cloneId msg now with h | ⟨r, h⟩
    · rw [h]; exact hnd
    · rw [h]; exact Js.nodup_keys_set st.workers cloneId r hnd
  · intro st cloneId now hnd
    unfold Manager.handleWorkerExit
    exact Js.nodup_keys_del st.workers cloneId hnd
  · intro st cloneId now hnd
    rcases handleWorkerError_workers_shape st cloneId now with h | ⟨r, h⟩
    · rw [h]; exact hnd
    · rw [h]; exact Js.nodup_keys_set st.workers cloneId r hnd

/-- Witness for C6 at concrete states: `start` on an existing record is
rejected without effects; a successful `start` leaves one record. -/
theorem C6_at_most_one_worker_per_clone_witness :
    Manager.startCloneWorker "c1" 43 2000 (fun _ => false) mgrTimedOut
      = (Manager.StartResult.err "Worker already running", mgrTimedOut,
         ([] : List Manager.Eff))
    ∧ (Js.keys (Manager.startCloneWorker "c1" 42 1000 (fun _ => false)
        mgr0).2.1.workers).count "c1" = 1 :=
  ⟨C6_at_most_one_worker_per_clone.1 mgrTimedOut "c1" 43 2000 (fun _ => false)
      erroredWorker rfl,
   C6_at_most_one_worker_per_clone.2.1 mgr0 "c1" 42 1000 (fun _ => false)
      failedClone rfl rfl⟩

/-- Claim C7: a worker whose in-memory status is `running` and whose last
heartbeat lies more than the 20s timeout in the past is, on the next
monitor tick, marked `error`, and its linked Clone is failed (the monitor
also clears `isRunning`); the tick emits no process signal at all, so the
worker process is not killed. -/
theorem C7_heartbeat_timeout_marks_error (st : Manager.ManagerState)
    (cloneId : String) (r : WorkerRecord) (c : CloneRecord) (now : Nat)
    (hnd : (Js.keys st.workers).Nodup)
    (hw : Js.get st.workers cloneId = some r)
    (hr : r.status = WorkerStatus.running)
    (ht : Manager.HEARTBEAT_TIMEOUT_MS < now - r.lastHeartbeat)
    (hc : Js.get st.clones cloneId = some c) :
    Js.get (Manager.monitorTick now st).1.workers cloneId
      = some { r with status := WorkerStatus.error }
    ∧ Js.get (Manager.monitorTick now st).1.clones cloneId
      = some { c with status := CloneStatus.failed, isRunning := some false,
                      updatedAt := now }
    ∧ (Manager.monitorTick now st).2 = ([] : List Manager.Eff) := by
  obtain ⟨l1, l2, hsplit, hn1⟩ := Js.get_some_split st.workers cloneId r hw
  have hkeys : (Js.keys l1 ++ cloneId :: Js.keys l2).Nodup := by
    have hcopy := hnd
    rw [hsplit] at hcopy
    simpa [Js.keys] using hcopy
  have hn2 : cloneId ∉ Js.keys l2 :=
    (List.nodup_cons.mp (List.nodup_append.mp hkeys).2.1).1
  have h1 : ∀ p ∈ l1, p.1 ≠ cloneId := by
    intro p hp heq
    exact hn1 (heq ▸ List.mem_map_of_mem Prod.fst hp)
  have h2 : ∀ p ∈ l2, p.1 ≠ cloneId := by
    intro p hp heq
    exact hn2 (heq ▸ List.mem_map_of_mem Prod.fst hp)
  have hfold : (Manager.monitorTick now st).1
      = l2.foldl (Manager.tickStep now)
          (Manager.tickStep now (l1.foldl (Manager.tickStep now) st) (cloneId, r)) := by
    unfold Manager.monitorTick
    conv_lhs => rw [hsplit]
    rw [List.foldl_append, List.foldl_cons]
  have hpre := tickFold_get_ne now l1 st cloneId h1
  have hw1 : Js.get (l1.foldl (Manager.tickStep now) st).workers cloneId = some r :=
    hpre.1.trans hw
  have hc1 : Js.get (l1.foldl (Manager.tickStep now) st).clones cloneId = some c :=
    hpre.2.trans hc
  have hstep : Manager.tickStep now (l1.foldl (Manager.tickStep now) st) (cloneId, r)
      = { l1.foldl (Manager.tickStep now) st with
          workers := Js.set (l1.foldl (Manager.tickStep now) st).workers cloneId
            { r with status := WorkerStatus.error },
          clones := CloneStore.updateClone (l1.foldl (Manager.tickStep now) st).clones
            cloneId { status := some CloneStatus.failed, isRunning := some false } now } := by
    unfold Manager.tickStep
    rw [if_pos ⟨hr, ht⟩]
  have happly : CloneStore.applyCloneUpdate c
      { status := some CloneStatus.failed, isRunning := some false } now
      = { c with status := CloneStatus.failed, isRunning := some false,
                 updatedAt := now } := by
    simp [CloneStore.applyCloneUpdate, truthyStr]
  have hpost := tickFold_get_ne now l2
    (Manager.tickStep now (l1.foldl (Manager.tickStep now) st) (cloneId, r)) cloneId h2
  refine ⟨?_, ?_, rfl⟩
  · rw [hfold, hpost.1, hstep]
    exact Js.get_set_self _ _ _
  · rw [hfold, hpost.2, hstep]
    show Js.get (CloneStore.updateClone _ cloneId _ now) cloneId = _
    unfold CloneStore.updateClone
    rw [hc1, Js.get_set_self, happly]

/-- A running worker with a stale heartbeat. -/
def staleWorker : WorkerRecord :=
  { status := WorkerStatus.running, lastHeartbeat := 100, pid := 42 }

/-- A clone currently `ready` and marked running. -/
def readyRunningClone : CloneRecord :=
  { sampleClone with status := CloneStatus.ready, isRunning := some true }

/-- A manager state with one stale running worker. -/
def mgrStale : Manager.ManagerState :=
  { workers := [("c1", staleWorker)], clones := [("c1", readyRunningClone)],
    jobs := [], integrations := [], pidFiles := [("c1", 42)] }

/-- `readyRunningClone` as the monitor leaves it after the timeout at 30000. -/
def timedOutClone : CloneRecord :=
  { readyRunningClone with
    status := CloneStatus.failed
    isRunning := some false
    updatedAt := 30000 }

/-- Witness for C7 at a concrete state, at tick time 30000 against a last
heartbeat of 100. -/
theorem C7_heartbeat_timeout_marks_error_witness :
    Js.get (Manager.monitorTick 30000 mgrStale).1.workers "c1"
      = some { staleWorker with status := WorkerStatus.error }
    ∧ Js.get (Manager.monitorTick 30000 mgrStale).1.clones "c1" = some timedOutClone
    ∧ (Manager.monitorTick 30000 mgrStale).2 = ([] : List Manager.Eff) :=
  C7_heartbeat_timeout_marks_error mgrStale "c1" staleWorker readyRunningClone 30000
    (by simp [mgrStale, Js.keys]) rfl rfl (by decide) rfl

/-- A string with a nonempty left part is nonempty. -/
theorem append_ne_empty_left (a b : String) (h : a ≠ "") : a ++ b ≠ "" := by
  intro hc
  apply h
  have hd := congrArg String.data hc
  rw [String.data_append] at hd
  have h2 : a.data = [] := (List.append_eq_nil.mp hd).1
  cases a with
  | mk d =>
    simp at h2
    simp [h2]

/-! ### Frame lemmas for the repository layer -/

theorem updateJobRepo_clones (id : String) (u : Repo.JobRepoUpdate) (now : Nat)
    (db : Repo.DB) : (Repo.updateJobRepo id u now db).clones = db.clones := by
  unfold Repo.updateJobRepo
  cases Js.get db.jobs id <;> rfl

theorem updateJobRepo_stagesRun (id : String) (u : Repo.JobRepoUpdate) (now : Nat)
    (db : Repo.DB) : (Repo.updateJobRepo id u now db).stagesRun = db.stagesRun := by
  unfold Repo.updateJobRepo
  cases Js.get db.jobs id <;> rfl

theorem updateJobRepo_statusWrites_found (id : String) (u : Repo.JobRepoUpdate)
    (now : Nat) (db : Repo.DB) (j : TrainingJob) (h : Js.get db.jobs id = some j) :
    (Repo.updateJobRepo id u now db).statusWrites
      = db.statusWrites ++ (match u.status with | some s => [(id, s)] | none => []) := by
  unfold Repo.updateJobRepo
  rw [h]

theorem getJobDB_updateJobRepo_self (id : String) (u : Repo.JobRepoUpdate)
    (now : Nat) (db : Repo.DB) (j : TrainingJob) (h : Js.get db.jobs id = some j) :
    Repo.getJobDB id (Repo.updateJobRepo id u now db)
      = some (Repo.applyJobRepoUpdate j u now) := by
  unfold Repo.getJobDB Repo.updateJobRepo
  rw [h]
  exact Js.get_set_self db.jobs id _

theorem appendLogRepo_clones (id line : String) (now : Nat) (db : Repo.DB) :
    (Repo.appendLogRepo id line now db).clones = db.clones := by
  unfold Repo.appendLogRepo
  cases Js.get db.jobs id <;> rfl

theorem appendLogRepo_stagesRun (id line : String) (now : Nat) (db : Repo.DB) :
    (Repo.appendLogRepo id line now db).stagesRun = db.stagesRun := by
  unfold Repo.appendLogRepo
  cases Js.get db.jobs id <;> rfl

theorem appendLogRepo_statusWrites (id line : String) (now : Nat) (db : Repo.DB) :
    (Repo.appendLogRepo id line now db).statusWrites = db.statusWrites := by
  unfold Repo.appendLogRepo
  cases Js.get db.jobs id <;> rfl

theorem getJobDB_appendLogRepo_self (id line : String) (now : Nat) (db : Repo.DB)
    (j : TrainingJob) (h : Js.get db.jobs id = some j) :
    Repo.getJobDB id (Repo.appendLogRepo id line now db)
      = some { j with logs := j.logs ++ [line], updatedAt := now } := by
  unfold Repo.getJobDB Repo.appendLogRepo
  rw [h]
  exact Js.get_set_self db.jobs id _

theorem updateCloneRepo_jobs (id : String) (u : Repo.CloneRepoUpdate) (now : Nat)
    (db : Repo.DB) : (Repo.updateCloneRepo id u now db).jobs = db.jobs := by
  unfold Repo.updateCloneRepo
  cases Js.get db.clones id <;> rfl

theorem updateCloneRepo_stagesRun (id : String) (u : Repo.CloneRepoUpdate) (now : Nat)
    (db : Repo.DB) : (Repo.updateCloneRepo id u now db).stagesRun = db.stagesRun := by
  unfold Repo.updateCloneRepo
  cases Js.get db.clones id <;> rfl

theorem updateCloneRepo_statusWrites (id : String) (u : Repo.CloneRepoUpdate)
    (now : Nat) (db : Repo.DB) :
    (Repo.updateCloneRepo id u now db).statusWrites = db.statusWrites := by
  unfold Repo.updateCloneRepo
  cases Js.get db.clones id <;> rfl

theorem getCloneDB_updateCloneRepo_self (id : String) (u : Repo.CloneRepoUpdate)
    (now : Nat) (db : Repo.DB) (c : CloneRecord) (h : Js.get db.clones id = some c) :
    Repo.getCloneDB id (Repo.updateCloneRepo id u now db)
      = some (Repo.applyCloneRepoUpdate c u now) := by
  unfold Repo.getCloneDB Repo.updateCloneRepo
  rw [h]
  exact Js.get_set_self db.clones id _

/-! ### Projection lemmas for the repository update bodies -/

theorem applyJobRepoUpdate_cloneId (j : TrainingJob) (u : Repo.JobRepoUpdate)
    (now : Nat) : (Repo.applyJobRepoUpdate j u now).cloneId = j.cloneId := by
  unfold Repo.applyJobRepoUpdate
  cases u.status <;> cases u.logs <;> cases u.knowledgeCount <;>
    cases u.knowledgeSources <;>
    simp [apply_ite (fun x : TrainingJob => x.cloneId)]

theorem applyJobRepoUpdate_logs (j : TrainingJob) (u : Repo.JobRepoUpdate)
    (now : Nat) (h : u.logs = none) :
    (Repo.applyJobRepoUpdate j u now).logs = j.logs := by
  unfold Repo.applyJobRepoUpdate
  rw [h]
  cases u.status <;> cases u.knowledgeCount <;> cases u.knowledgeSources <;>
    simp [apply_ite (fun x : TrainingJob => x.logs)]

theorem applyJobRepoUpdate_error_none (j : TrainingJob) (u : Repo.JobRepoUpdate)
    (now : Nat) (h : u.error = none) :
    (Repo.applyJobRepoUpdate j u now).error = j.error := by
  unfold Repo.applyJobRepoUpdate
  rw [h]
  cases u.status <;> cases u.logs <;> cases u.knowledgeCount <;>
    cases u.knowledgeSources <;>
    simp [truthyStr, apply_ite (fun x : TrainingJob => x.error)]

theorem applyJobRepoUpdate_status_some (j : TrainingJob) (u : Repo.JobRepoUpdate)
    (now : Nat) (s : JobStatus) (h : u.status = some s) :
    (Repo.applyJobRepoUpdate j u now).status = s := by
  unfold Repo.applyJobRepoUpdate
  rw [h]
  cases u.logs <;> cases u.knowledgeCount <;> cases u.knowledgeSources <;>
    simp [apply_ite (fun x : TrainingJob => x.status)]

theorem applyJobRepoUpdate_status_none (j : TrainingJob) (u : Repo.JobRepoUpdate)
    (now : Nat) (h : u.status = none) :
    (Repo.applyJobRepoUpdate j u now).status = j.status := by
  unfold Repo.applyJobRepoUpdate
  rw [h]
  cases u.logs <;> cases u.knowledgeCount <;> cases u.knowledgeSources <;>
    simp [apply_ite (fun x : TrainingJob => x.status)]

theorem applyCloneRepoUpdate_status_some (c : CloneRecord) (u : Repo.CloneRepoUpdate)
    (now : Nat) (s : CloneStatus) (h : u.status = some s) :
    (Repo.applyCloneRepoUpdate c u now).status = s := by
  unfold Repo.applyCloneRepoUpdate
  rw [h]
  cases u.isRunning <;> cases u.messengers <;> cases u.datasetCount <;>
    cases u.knowledgeCount <;> cases u.knowledgeSources <;>
    simp [apply_ite (fun x : CloneRecord => x.status)]

theorem applyCloneRepoUpdate_status_none (c : CloneRecord) (u : Repo.CloneRepoUpdate)
    (now : Nat) (h : u.status = none) :
    (Repo.applyCloneRepoUpdate c u now).status = c.status := by
  unfold Repo.applyCloneRepoUpdate
  rw [h]
  cases u.isRunning <;> cases u.messengers <;> cases u.datasetCount <;>
    cases u.knowledgeCount <;> cases u.knowledgeSources <;>
    simp [apply_ite (fun x : CloneRecord => x.status)]

/-! ### The log-streaming fold of `runLoggedProcess` -/

theorem foldAppendLog_clones (out : List String) (id : String) (now : Nat)
    (db : Repo.DB) :
    (out.foldl (fun d line => Repo.appendLogRepo id line now d) db).clones
      = db.clones := by
  induction out generalizing db with
  | nil => rfl
  | cons hd tl ih => rw [List.foldl_cons, ih, appendLogRepo_clones]

theorem foldAppendLog_stagesRun (out : List String) (id : String) (now : Nat)
    (db : Repo.DB) :
    (out.foldl (fun d line => Repo.appendLogRepo id line now d) db).stagesRun
      = db.stagesRun := by
  induction out generalizing db with
  | nil => rfl
  | cons hd tl ih => rw [List.foldl_cons, ih, appendLogRepo_stagesRun]

theorem foldAppendLog_statusWrites (out : List String) (id : String) (now : Nat)
    (db : Repo.DB) :
    (out.foldl (fun d line => Repo.appendLogRepo id line now d) db).statusWrites
      = db.statusWrites := by
  induction out generalizing db with
  | nil => rfl
  | cons hd tl ih => rw [List.foldl_cons, ih, appendLogRepo_statusWrites]

theorem getJobDB_foldAppendLog (out : List String) (id : String) (now : Nat)
    (db : Repo.DB) (j : TrainingJob) (h : Repo.getJobDB id db = some j) :
    ∃ j2, Repo.getJobDB id
        (out.foldl (fun d line => Repo.appendLogRepo id line now d) db) = some j2
      ∧ j2.cloneId = j.cloneId ∧ j2.status = j.status ∧ j2.error = j.error
      ∧ j2.logs = j.logs ++ out := by
  induction out generalizing db j with
  | nil => exact ⟨j, by simpa using h, rfl, rfl, rfl, by simp⟩
  | cons hd tl ih =>
    rw [List.foldl_cons]
    have h1 := getJobDB_appendLogRepo_self id hd now db j h
    obtain ⟨j2, hj2, hcid, hst, herr, hlogs⟩ := ih (Repo.appendLogRepo id hd now db) _ h1
    exact ⟨j2, hj2, hcid, hst, herr, by simp [hlogs]⟩

/-- Full behaviour of `runLoggedProcess` on a present job: result value,
frame on clones/ghosts, stage recording, and the job after streaming. -/
theorem runLoggedProcess_spec (jobId label : String) (out : List String)
    (e now : Nat) (db : Repo.DB) (j : TrainingJob)
    (h : Repo.getJobDB jobId db = some j) :
    (Pipeline.runLoggedProcess jobId label out e now db).1
      = (if e ≠ 0 then
          Except.error (label ++ " exited with code " ++ toString e)
         else Except.ok ())
    ∧ (Pipeline.runLoggedProcess jobId label out e now db).2.clones = db.clones
    ∧ (Pipeline.runLoggedProcess jobId label out e now db).2.stagesRun
        = db.stagesRun ++ [label]
    ∧ (Pipeline.runLoggedProcess jobId label out e now db).2.statusWrites
        = db.statusWrites
    ∧ (∃ j2, Repo.getJobDB jobId (Pipeline.runLoggedProcess jobId label out e now db).2
          = some j2
        ∧ j2.cloneId = j.cloneId ∧ j2.status = j.status ∧ j2.error = j.error
        ∧ j2.logs = j.logs ++ out) := by
  have hbase : Repo.getJobDB jobId { db with stagesRun := db.stagesRun ++ [label] }
      = some j := h
  have hsnd : (Pipeline.runLoggedProcess jobId label out e now db).2
      = out.foldl (fun d line => Repo.appendLogRepo jobId line now d)
          { db with stagesRun := db.stagesRun ++ [label] } := by
    unfold Pipeline.runLoggedProcess
    by_cases he : e ≠ 0 <;> simp [he]
  refine ⟨?_, ?_, ?_, ?_, ?_⟩
  · unfold Pipeline.runLoggedProcess
    by_cases he : e ≠ 0 <;> simp [he]
  · rw [hsnd, foldAppendLog_clones]
  · rw [hsnd, foldAppendLog_stagesRun]
  · rw [hsnd, foldAppendLog_statusWrites]
  · rw [hsnd]
    exact getJobDB_foldAppendLog out jobId now _ j hbase

/-- The repository update of the `catch` block on the job. -/
theorem applyJobRepoUpdate_fail (j : TrainingJob) (e : String) (now : Nat)
    (he : e ≠ "") :
    Repo.applyJobRepoUpdate j
      { status := some JobStatus.failed, error := some e } now
      = { j with status := JobStatus.failed, error := some e, updatedAt := now } := by
  simp [Repo.applyJobRepoUpdate, truthyStr, he]

/-- The repository update of the `catch` block on the clone. -/
theorem applyCloneRepoUpdate_only_status (c : CloneRecord) (s : CloneStatus) (now : Nat) :
    Repo.applyCloneRepoUpdate c { status := some s } now
      = { c with status := s, updatedAt := now } := by
  simp [Repo.applyCloneRepoUpdate, truthyStr]

/-- Full behaviour of `pipelineCatch` when job and linked clone exist. -/
theorem pipelineCatch_spec (jobId e : String) (now : Nat) (db : Repo.DB)
    (j : TrainingJob) (cid : String) (c : CloneRecord)
    (hj : Repo.getJobDB jobId db = some j)
    (hcid : j.cloneId = some cid)
    (hc : Repo.getCloneDB cid db = some c)
    (he : e ≠ "") :
    Repo.getJobDB jobId (Pipeline.pipelineCatch jobId e now db)
      = some { j with status := JobStatus.failed, error := some e, updatedAt := now }
    ∧ Repo.getCloneDB cid (Pipeline.pipelineCatch jobId e now db)
      = some { c with status := CloneStatus.failed, updatedAt := now }
    ∧ (Pipeline.pipelineCatch jobId e now db).stagesRun = db.stagesRun
    ∧ (Pipeline.pipelineCatch jobId e now db).statusWrites
      = db.statusWrites ++ [(jobId, JobStatus.failed)] := by
  have h1 := getJobDB_updateJobRepo_self jobId
    { status := some JobStatus.failed, error := some e } now db j hj
  rw [applyJobRepoUpdate_fail j e now he] at h1
  have hcid1 : ({ j with status := JobStatus.failed, error := some e, updatedAt := now } : TrainingJob).cloneId = some cid := hcid
  have hcatch : Pipeline.pipelineCatch jobId e now db
      = Repo.updateCloneRepo cid { status := some CloneStatus.failed } now
          (Repo.updateJobRepo jobId
            { status := some JobStatus.failed, error := some e } now db) := by
    unfold Pipeline.pipelineCatch
    simp only [h1, hcid]
  have hc1 : Repo.getCloneDB cid
      (Repo.updateJobRepo jobId
        { status := some JobStatus.failed, error := some e } now db) = some c := by
    show Js.get _ cid = some c
    rw [updateJobRepo_clones]
    exact hc
  refine ⟨?_, ?_, ?_, ?_⟩
  · rw [hcatch]
    show Js.get _ jobId = _
    rw [updateCloneRepo_jobs]
    exact h1
  · rw [hcatch, getCloneDB_updateCloneRepo_self cid _ now _ c hc1,
      applyCloneRepoUpdate_only_status]
  · rw [hcatch, updateCloneRepo_stagesRun, updateJobRepo_stagesRun]
  · rw [hcatch, updateCloneRepo_statusWrites,
      updateJobRepo_statusWrites_found jobId _ now db j hj]

/-- A bare status write through `updateJobRepo`. -/
theorem applyJobRepoUpdate_only_status (j : TrainingJob) (s : JobStatus) (now : Nat) :
    Repo.applyJobRepoUpdate j { status := some s } now
      = { j with status := s, updatedAt := now } := by
  simp [Repo.applyJobRepoUpdate, truthyStr]

/-- Full behaviour of `finishSuccess` when job and linked clone exist. -/
theorem finishSuccess_spec (jobId : String) (now : Nat) (db : Repo.DB)
    (j : TrainingJob) (cid : String) (c : CloneRecord)
    (hj : Repo.getJobDB jobId db = some j)
    (hcid : j.cloneId = some cid)
    (hc : Repo.getCloneDB cid db = some c) :
    Repo.getJobDB jobId (Pipeline.finishSuccess jobId now db)
      = some { j with status := JobStatus.succeeded, updatedAt := now }
    ∧ Repo.getCloneDB cid (Pipeline.finishSuccess jobId now db)
      = some { c with status := CloneStatus.ready, updatedAt := now }
    ∧ (Pipeline.finishSuccess jobId now db).stagesRun = db.stagesRun
    ∧ (Pipeline.finishSuccess jobId now db).statusWrites
      = db.statusWrites ++ [(jobId, JobStatus.succeeded)] := by
  have h1 := getJobDB_updateJobRepo_self jobId
    { status := some JobStatus.succeeded } now db j hj
  rw [applyJobRepoUpdate_only_status j JobStatus.succeeded now] at h1
  have hfin : Pipeline.finishSuccess jobId now db
      = Repo.updateCloneRepo cid { status := some CloneStatus.ready } now
          (Repo.updateJobRepo jobId { status := some JobStatus.succeeded } now db) := by
    unfold Pipeline.finishSuccess
    simp only [h1, hcid]
  have hc1 : Repo.getCloneDB cid
      (Repo.updateJobRepo jobId { status := some JobStatus.succeeded } now db)
        = some c := by
    show Js.get _ cid = some c
    rw [updateJobRepo_clones]
    exact hc
  refine ⟨?_, ?_, ?_, ?_⟩
  · rw [hfin]
    show Js.get _ jobId = _
    rw [updateCloneRepo_jobs]
    exact h1
  · rw [hfin, getCloneDB_updateCloneRepo_self cid _ now _ c hc1,
      applyCloneRepoUpdate_only_status]
  · rw [hfin, updateCloneRepo_stagesRun, updateJobRepo_stagesRun]
  · rw [hfin, updateCloneRepo_statusWrites,
      updateJobRepo_statusWrites_found jobId _ now db j hj]

/-- Full behaviour of `knowledgeSyncStep` when job and linked clone exist:
no status is written to either record. -/
theorem knowledgeSyncStep_spec (jobId kf rid : String)
    (stats : Pipeline.KnowledgeStats) (now : Nat) (db : Repo.DB)
    (j : TrainingJob) (cid : String) (c : CloneRecord)
    (hj : Repo.getJobDB jobId db = some j)
    (hcid : j.cloneId = some cid)
    (hc : Repo.getCloneDB cid db = some c) :
    ∃ j3 c3,
      Repo.getJobDB jobId (Pipeline.knowledgeSyncStep jobId kf rid stats now db)
        = some j3
      ∧ Repo.getCloneDB cid (Pipeline.knowledgeSyncStep jobId kf rid stats now db)
        = some c3
      ∧ j3.cloneId = j.cloneId ∧ j3.status = j.status ∧ j3.error = j.error
      ∧ j3.logs = j.logs
      ∧ c3.status = c.status
      ∧ (Pipeline.knowledgeSyncStep jobId kf rid stats now db).stagesRun = db.stagesRun
      ∧ (Pipeline.knowledgeSyncStep jobId kf rid stats now db).statusWrites
          = db.statusWrites := by
  have h1 := getJobDB_updateJobRepo_self jobId
    { knowledgeCount := some stats.totalChunks,
      knowledgeSources := some stats.sources } now db j hj
  have hcid1 : (Repo.applyJobRepoUpdate j
      { knowledgeCount := some stats.totalChunks,
        knowledgeSources := some stats.sources } now).cloneId = some cid := by
    rw [applyJobRepoUpdate_cloneId]
    exact hcid
  have hstep : Pipeline.knowledgeSyncStep jobId kf rid stats now db
      = Repo.updateCloneRepo cid
          { knowledgeCount := some stats.totalChunks,
            knowledgeSources := some stats.sources,
            knowledgeFile := some kf, ragIndexDir := some rid } now
          (Repo.updateJobRepo jobId
            { knowledgeCount := some stats.totalChunks,
              knowledgeSources := some stats.sources } now db) := by
    unfold Pipeline.knowledgeSyncStep
    simp only [h1, hcid1]
  have hc1 : Repo.getCloneDB cid
      (Repo.updateJobRepo jobId
        { knowledgeCount := some stats.totalChunks,
          knowledgeSources := some stats.sources } now db) = some c := by
    show Js.get _ cid = some c
    rw [updateJobRepo_clones]
    exact hc
  refine ⟨Repo.applyJobRepoUpdate j
      { knowledgeCount := some stats.totalChunks,
        knowledgeSources := some stats.sources } now,
    Repo.applyCloneRepoUpdate c
      { knowledgeCount := some stats.totalChunks,
        knowledgeSources := some stats.sources,
        knowledgeFile := some kf, ragIndexDir := some rid } now,
    ?_, ?_, ?_, ?_, ?_, ?_, ?_, ?_, ?_⟩
  · rw [hstep]
    show Js.get _ jobId = _
    rw [updateCloneRepo_jobs]
    exact h1
  · rw [hstep]
    exact getCloneDB_updateCloneRepo_self cid _ now _ c hc1
  · exact applyJobRepoUpdate_cloneId j _ now
  · exact applyJobRepoUpdate_status_none j _ now rfl
  · exact applyJobRepoUpdate_error_none j _ now rfl
  · exact applyJobRepoUpdate_logs j _ now rfl
  · exact applyCloneRepoUpdate_status_none c _ now rfl
  · rw [hstep, updateCloneRepo_stagesRun, updateJobRepo_stagesRun]
  · rw [hstep, updateCloneRepo_statusWrites,
      updateJobRepo_statusWrites_found jobId _ now db j hj]
    simp

/-- Full behaviour of `runRagIndexStep`: a non-zero stage-2 exit is
caught and only logged (the job keeps its status and error), a zero exit
logs success; either way `rag_index` is recorded as spawned. -/
theorem runRagIndexStep_spec (jobId kf rid : String) (w : Pipeline.PipelineWorld)
    (now : Nat) (db : Repo.DB) (j : TrainingJob)
    (hj : Repo.getJobDB jobId db = some j) :
    (Pipeline.runRagIndexStep jobId kf rid w now db).clones = db.clones
    ∧ (Pipeline.runRagIndexStep jobId kf rid w now db).stagesRun
        = db.stagesRun ++ ["rag_index"]
    ∧ (Pipeline.runRagIndexStep jobId kf rid w now db).statusWrites = db.statusWrites
    ∧ ∃ j2, Repo.getJobDB jobId (Pipeline.runRagIndexStep jobId kf rid w now db)
          = some j2
        ∧ j2.cloneId = j.cloneId ∧ j2.status = j.status ∧ j2.error = j.error
        ∧ j2.logs = j.logs ++ ("Building RAG index from " ++ kf) :: (w.stage2Out
            ++ [if w.stage2Exit ≠ 0 then
                  "RAG index build failed (will continue without RAG): "
                    ++ ("rag_index" ++ " exited with code " ++ toString w.stage2Exit)
                else "RAG index saved to " ++ rid]) := by
  have h0 := getJobDB_appendLogRepo_self jobId ("Building RAG index from " ++ kf)
    now db j hj
  obtain ⟨hfst, hcl, hsr, hsw, jA, hjA, hcidA, hstA, herrA, hlogsA⟩ :=
    runLoggedProcess_spec jobId "rag_index" w.stage2Out w.stage2Exit now
      (Repo.appendLogRepo jobId ("Building RAG index from " ++ kf) now db) _ h0
  by_cases he2 : w.stage2Exit ≠ 0
  · have hfst2 : (Pipeline.runLoggedProcess jobId "rag_index" w.stage2Out w.stage2Exit
        now (Repo.appendLogRepo jobId ("Building RAG index from " ++ kf) now db)).1
        = Except.error ("rag_index" ++ " exited with code " ++ toString w.stage2Exit) := by
      rw [hfst, if_pos he2]
    have hred : Pipeline.runRagIndexStep jobId kf rid w now db
        = Repo.appendLogRepo jobId
            ("RAG index build failed (will continue without RAG): "
              ++ ("rag_index" ++ " exited with code " ++ toString w.stage2Exit)) now
            (Pipeline.runLoggedProcess jobId "rag_index" w.stage2Out w.stage2Exit now
              (Repo.appendLogRepo jobId ("Building RAG index from " ++ kf) now db)).2 := by
      unfold Pipeline.runRagIndexStep
      simp only [hfst2]
    have h3 := getJobDB_appendLogRepo_self jobId
      ("RAG index build failed (will continue without RAG): "
        ++ ("rag_index" ++ " exited with code " ++ toString w.stage2Exit)) now _ jA hjA
    refine ⟨?_, ?_, ?_, ?_⟩
    · rw [hred, appendLogRepo_clones, hcl, appendLogRepo_clones]
    · rw [hred, appendLogRepo_stagesRun, hsr, appendLogRepo_stagesRun]
    · rw [hred, appendLogRepo_statusWrites, hsw, appendLogRepo_statusWrites]
    · refine ⟨{ jA with
          logs := jA.logs ++ ["RAG index build failed (will continue without RAG): "
            ++ ("rag_index" ++ " exited with code " ++ toString w.stage2Exit)]
          updatedAt := now },
        by rw [hred]; exact h3, hcidA, hstA, herrA, ?_⟩
      show jA.logs ++ _ = _
      rw [hlogsA]
      simp [he2]
  · have hfst2 : (Pipeline.runLoggedProcess jobId "rag_index" w.stage2Out w.stage2Exit
        now (Repo.appendLogRepo jobId ("Building RAG index from " ++ kf) now db)).1
        = Except.ok () := by
      rw [hfst, if_neg he2]
    have hred : Pipeline.runRagIndexStep jobId kf rid w now db
        = Repo.appendLogRepo jobId ("RAG index saved to " ++ rid) now
            (Pipeline.runLoggedProcess jobId "rag_index" w.stage2Out w.stage2Exit now
              (Repo.appendLogRepo jobId ("Building RAG index from " ++ kf) now db)).2 := by
      unfold Pipeline.runRagIndexStep
      simp only [hfst2]
    have h3 := getJobDB_appendLogRepo_self jobId ("RAG index saved to " ++ rid) now _ jA hjA
    refine ⟨?_, ?_, ?_, ?_⟩
    · rw [hred, appendLogRepo_clones, hcl, appendLogRepo_clones]
    · rw [hred, appendLogRepo_stagesRun, hsr, appendLogRepo_stagesRun]
    · rw [hred, appendLogRepo_statusWrites, hsw, appendLogRepo_statusWrites]
    · refine ⟨{ jA with
          logs := jA.logs ++ ["RAG index saved to " ++ rid]
          updatedAt := now },
        by rw [hred]; exact h3, hcidA, hstA, herrA, ?_⟩
      show jA.logs ++ _ = _
      rw [hlogsA]
      simp [he2]

/-- The first write of `runPipeline`: `status: "running"` plus the four
job-scoped artifact paths. -/
def initialJobUpdate (jobId : String) : Repo.JobRepoUpdate :=
  { status := some JobStatus.running
    adapterDir := some (Pipeline.OUTPUTS_DIR ++ "/" ++ jobId ++ "/outputs" ++ "/lora_adapter")
    processedDir := some (Pipeline.OUTPUTS_DIR ++ "/" ++ jobId ++ "/processed_dataset")
    knowledgeFile := some (Pipeline.OUTPUTS_DIR ++ "/" ++ jobId ++ "/processed_dataset" ++ "/knowledge.jsonl")
    ragIndexDir := some (Pipeline.OUTPUTS_DIR ++ "/" ++ jobId ++ "/rag_index") }

/-- `runPipeline` unfolded to its stage-1 dispatch. -/
theorem runPipeline_eq (jobId : String) (p : Pipeline.TrainPayload)
    (w : Pipeline.PipelineWorld) (now : Nat) (db : Repo.DB) :
    Pipeline.runPipeline jobId p w now db
      = (let res1 := Pipeline.runLoggedProcess jobId "dataset_pipeline" w.stage1Out
           w.stage1Exit now (Repo.updateJobRepo jobId (initialJobUpdate jobId) now db)
         match res1.1 with
         | Except.error e => Pipeline.pipelineCatch jobId e now res1.2
         | Except.ok _ => Pipeline.runPipelineAfterStage1 jobId
             (Pipeline.OUTPUTS_DIR ++ "/" ++ jobId ++ "/processed_dataset" ++ "/knowledge.jsonl")
             (Pipeline.OUTPUTS_DIR ++ "/" ++ jobId ++ "/rag_index") w now res1.2) := rfl

/-- The stage-1 status write, with the job's identity fields untouched. -/
theorem initialJobUpdate_spec (jobId : String) (now : Nat) (db : Repo.DB)
    (j : TrainingJob) (hj : Repo.getJobDB jobId db = some j) :
    Repo.getJobDB jobId (Repo.updateJobRepo jobId (initialJobUpdate jobId) now db)
      = some (Repo.applyJobRepoUpdate j (initialJobUpdate jobId) now)
    ∧ (Repo.applyJobRepoUpdate j (initialJobUpdate jobId) now).cloneId = j.cloneId
    ∧ (Repo.applyJobRepoUpdate j (initialJobUpdate jobId) now).status = JobStatus.running
    ∧ (Repo.applyJobRepoUpdate j (initialJobUpdate jobId) now).logs = j.logs
    ∧ (Repo.applyJobRepoUpdate j (initialJobUpdate jobId) now).error = j.error
    ∧ (Repo.updateJobRepo jobId (initialJobUpdate jobId) now db).clones = db.clones
    ∧ (Repo.updateJobRepo jobId (initialJobUpdate jobId) now db).stagesRun = db.stagesRun
    ∧ (Repo.updateJobRepo jobId (initialJobUpdate jobId) now db).statusWrites
        = db.statusWrites ++ [(jobId, JobStatus.running)] := by
  refine ⟨getJobDB_updateJobRepo_self jobId _ now db j hj,
    applyJobRepoUpdate_cloneId j _ now,
    applyJobRepoUpdate_status_some j _ now JobStatus.running rfl,
    applyJobRepoUpdate_logs j _ now rfl,
    applyJobRepoUpdate_error_none j _ now rfl,
    updateJobRepo_clones jobId _ now db,
    updateJobRepo_stagesRun jobId _ now db,
    ?_⟩
  rw [updateJobRepo_statusWrites_found jobId _ now db j hj]
  rfl

/-- Claim C1: a non-zero exit from stage 1 (dataset parsing) is fatal —
stages 2 and 3 are never spawned (the ghost stage trace gains only
`dataset_pipeline`), the job ends `failed` with the stage label and exit
code as its error, and the linked clone ends `failed`. -/
theorem C1_stage1_failure_fatal (jobId : String) (p : Pipeline.TrainPayload)
    (w : Pipeline.PipelineWorld) (now : Nat) (db : Repo.DB)
    (j : TrainingJob) (cid : String) (c : CloneRecord)
    (hj : Repo.getJobDB jobId db = some j)
    (hcid : j.cloneId = some cid)
    (hc : Repo.getCloneDB cid db = some c)
    (hexit : w.stage1Exit ≠ 0) :
    (Repo.getJobDB jobId (Pipeline.runPipeline jobId p w now db)).map (fun x => x.status)
      = some JobStatus.failed
    ∧ (Repo.getJobDB jobId (Pipeline.runPipeline jobId p w now db)).bind (fun x => x.error)
      = some ("dataset_pipeline" ++ " exited with code " ++ toString w.stage1Exit)
    ∧ (Repo.getCloneDB cid (Pipeline.runPipeline jobId p w now db)).map (fun x => x.status)
      = some CloneStatus.failed
    ∧ (Pipeline.runPipeline jobId p w now db).stagesRun
      = db.stagesRun ++ ["dataset_pipeline"] := by
  obtain ⟨hj1, hcid1, hst1, hlogs1, herr1, hcl1, hsr1, hsw1⟩ :=
    initialJobUpdate_spec jobId now db j hj
  obtain ⟨hfst, hcl2, hsr2, hsw2, j2, hj2, hcid2, hst2, herr2, hlogs2⟩ :=
    runLoggedProcess_spec jobId "dataset_pipeline" w.stage1Out w.stage1Exit now
      (Repo.updateJobRepo jobId (initialJobUpdate jobId) now db) _ hj1
  have hfst2 : (Pipeline.runLoggedProcess jobId "dataset_pipeline" w.stage1Out
      w.stage1Exit now (Repo.updateJobRepo jobId (initialJobUpdate jobId) now db)).1
      = Except.error ("dataset_pipeline" ++ " exited with code " ++ toString w.stage1Exit) := by
    rw [hfst, if_pos hexit]
  have hred : Pipeline.runPipeline jobId p w now db
      = Pipeline.pipelineCatch jobId
          ("dataset_pipeline" ++ " exited with code " ++ toString w.stage1Exit) now
          (Pipeline.runLoggedProcess jobId "dataset_pipeline" w.stage1Out
            w.stage1Exit now (Repo.updateJobRepo jobId (initialJobUpdate jobId) now db)).2 := by
    rw [runPipeline_eq]
    simp only [hfst2]
  have hcid2b : j2.cloneId = some cid := by rw [hcid2, hcid1, hcid]
  have hc2 : Repo.getCloneDB cid
      (Pipeline.runLoggedProcess jobId "dataset_pipeline" w.stage1Out
        w.stage1Exit now (Repo.updateJobRepo jobId (initialJobUpdate jobId) now db)).2
      = some c := by
    show Js.get _ cid = some c
    rw [hcl2, hcl1]
    exact hc
  have hne : ("dataset_pipeline" ++ " exited with code " ++ toString w.stage1Exit) ≠ "" :=
    append_ne_empty_left _ _ (append_ne_empty_left _ _ (by decide))
  obtain ⟨hjf, hcf, hsrf, hswf⟩ := pipelineCatch_spec jobId _ now _ j2 cid c hj2 hcid2b hc2 hne
  refine ⟨?_, ?_, ?_, ?_⟩
  · rw [hred, hjf]
    rfl
  · rw [hred, hjf]
    rfl
  · rw [hred, hcf]
    rfl
  · rw [hred, hsrf, hsr2, hsr1]

/-- `knowledgeSyncStep` writes no status and keeps the job's identity
fields, with or without a linked clone. -/
theorem knowledgeSyncStep_spec_noclone (jobId kf rid : String)
    (stats : Pipeline.KnowledgeStats) (now : Nat) (db : Repo.DB)
    (j : TrainingJob) (hj : Repo.getJobDB jobId db = some j) :
    ∃ j3, Repo.getJobDB jobId (Pipeline.knowledgeSyncStep jobId kf rid stats now db)
        = some j3
      ∧ j3.cloneId = j.cloneId ∧ j3.status = j.status ∧ j3.error = j.error
      ∧ j3.logs = j.logs
      ∧ (Pipeline.knowledgeSyncStep jobId kf rid stats now db).stagesRun = db.stagesRun
      ∧ (Pipeline.knowledgeSyncStep jobId kf rid stats now db).statusWrites
          = db.statusWrites := by
  have h1 := getJobDB_updateJobRepo_self jobId
    { knowledgeCount := some stats.totalChunks,
      knowledgeSources := some stats.sources } now db j hj
  have hsw1 : (Repo.updateJobRepo jobId
      { knowledgeCount := some stats.totalChunks,
        knowledgeSources := some stats.sources } now db).statusWrites
      = db.statusWrites := by
    rw [updateJobRepo_statusWrites_found jobId _ now db j hj]
    simp
  have hcid1 : (Repo.applyJobRepoUpdate j
      { knowledgeCount := some stats.totalChunks,
        knowledgeSources := some stats.sources } now).cloneId = j.cloneId :=
    applyJobRepoUpdate_cloneId j _ now
  refine ⟨Repo.applyJobRepoUpdate j
    { knowledgeCount := some stats.totalChunks,
      knowledgeSources := some stats.sources } now, ?_, hcid1,
    applyJobRepoUpdate_status_none j _ now rfl,
    applyJobRepoUpdate_error_none j _ now rfl,
    applyJobRepoUpdate_logs j _ now rfl, ?_, ?_⟩
  · cases hcc : j.cloneId with
    | none =>
      unfold Pipeline.knowledgeSyncStep
      rw [hcc] at hcid1
      simp only [h1, hcid1]
      try exact h1
    | some cid =>
      unfold Pipeline.knowledgeSyncStep
      rw [hcc] at hcid1
      simp only [h1, hcid1]
      show Js.get _ jobId = _
      rw [updateCloneRepo_jobs]
      exact h1
  · cases hcc : j.cloneId with
    | none =>
      unfold Pipeline.knowledgeSyncStep
      rw [hcc] at hcid1
      simp only [h1, hcid1]
      rw [updateJobRepo_stagesRun]
    | some cid =>
      unfold Pipeline.knowledgeSyncStep
      rw [hcc] at hcid1
      simp only [h1, hcid1]
      rw [updateCloneRepo_stagesRun, updateJobRepo_stagesRun]
  · cases hcc : j.cloneId with
    | none =>
      unfold Pipeline.knowledgeSyncStep
      rw [hcc] at hcid1
      simp only [h1, hcid1]
      exact hsw1
    | some cid =>
      unfold Pipeline.knowledgeSyncStep
      rw [hcc] at hcid1
      simp only [h1, hcid1]
      rw [updateCloneRepo_statusWrites]
      exact hsw1

/-- The ghost status trace of the `catch` block: one `failed` write. -/
theorem pipelineCatch_statusWrites (jobId e : String) (now : Nat) (db : Repo.DB)
    (j : TrainingJob) (hj : Repo.getJobDB jobId db = some j) :
    (Pipeline.pipelineCatch jobId e now db).statusWrites
      = db.statusWrites ++ [(jobId, JobStatus.failed)] := by
  have h1 := getJobDB_updateJobRepo_self jobId
    { status := some JobStatus.failed, error := some e } now db j hj
  have hsw1 : (Repo.updateJobRepo jobId
      { status := some JobStatus.failed, error := some e } now db).statusWrites
      = db.statusWrites ++ [(jobId, JobStatus.failed)] := by
    rw [updateJobRepo_statusWrites_found jobId _ now db j hj]
  cases hcc : (Repo.applyJobRepoUpdate j
      { status := some JobStatus.failed, error := some e } now).cloneId with
  | none =>
    unfold Pipeline.pipelineCatch
    simp only [h1, hcc]
    exact hsw1
  | some cid =>
    unfold Pipeline.pipelineCatch
    simp only [h1, hcc]
    rw [updateCloneRepo_statusWrites]
    exact hsw1

/-- The ghost status trace of the success tail: one `succeeded` write. -/
theorem finishSuccess_statusWrites (jobId : String) (now : Nat) (db : Repo.DB)
    (j : TrainingJob) (hj : Repo.getJobDB jobId db = some j) :
    (Pipeline.finishSuccess jobId now db).statusWrites
      = db.statusWrites ++ [(jobId, JobStatus.succeeded)] := by
  have h1 := getJobDB_updateJobRepo_self jobId
    { status := some JobStatus.succeeded } now db j hj
  have hsw1 : (Repo.updateJobRepo jobId
      { status := some JobStatus.succeeded } now db).statusWrites
      = db.statusWrites ++ [(jobId, JobStatus.succeeded)] := by
    rw [updateJobRepo_statusWrites_found jobId _ now db j hj]
  cases hcc : (Repo.applyJobRepoUpdate j
      { status := some JobStatus.succeeded } now).cloneId with
  | none =>
    unfold Pipeline.finishSuccess
    simp only [h1, hcc]
    exact hsw1
  | some cid =>
    unfold Pipeline.finishSuccess
    simp only [h1, hcc]
    rw [updateCloneRepo_statusWrites]
    exact hsw1

/-- The ghost status trace of everything after stage 1: exactly one
terminal write, `failed` on a non-zero stage-3 exit, else `succeeded` —
stage 2 never writes a status. -/
theorem runPipelineAfterStage1_statusWrites (jobId kf rid : String)
    (w : Pipeline.PipelineWorld) (now : Nat) (db : Repo.DB) (j : TrainingJob)
    (hj : Repo.getJobDB jobId db = some j) :
    (Pipeline.runPipelineAfterStage1 jobId kf rid w now db).statusWrites
      = db.statusWrites ++
        [(jobId, if w.stage3Exit ≠ 0 then JobStatus.failed else JobStatus.succeeded)] := by
  obtain ⟨j3, hj3, hcid3, hst3, herr3, hlogs3, hsr3, hsw3⟩ :=
    knowledgeSyncStep_spec_noclone jobId kf rid w.knowledgeStats now db j hj
  by_cases hch : w.knowledgeStats.totalChunks > 0
  · obtain ⟨hclR, hsrR, hswR, j4, hj4, hcid4, hst4, herr4, hlogs4⟩ :=
      runRagIndexStep_spec jobId kf rid w now
        (Pipeline.knowledgeSyncStep jobId kf rid w.knowledgeStats now db) j3 hj3
    obtain ⟨hfstC, hclC, hsrC, hswC, j5, hj5, hcid5, hst5, herr5, hlogs5⟩ :=
      runLoggedProcess_spec jobId "train_qlora" w.stage3Out w.stage3Exit now
        (Pipeline.runRagIndexStep jobId kf rid w now
          (Pipeline.knowledgeSyncStep jobId kf rid w.knowledgeStats now db)) j4 hj4
    by_cases he3 : w.stage3Exit ≠ 0
    · have hfst3 : (Pipeline.runLoggedProcess jobId "train_qlora" w.stage3Out
          w.stage3Exit now (Pipeline.runRagIndexStep jobId kf rid w now
            (Pipeline.knowledgeSyncStep jobId kf rid w.knowledgeStats now db))).1
          = Except.error ("train_qlora" ++ " exited with code " ++ toString w.stage3Exit) := by
        rw [hfstC, if_pos he3]
      have hred : Pipeline.runPipelineAfterStage1 jobId kf rid w now db
          = Pipeline.pipelineCatch jobId
              ("train_qlora" ++ " exited with code " ++ toString w.stage3Exit) now
              (Pipeline.runLoggedProcess jobId "train_qlora" w.stage3Out w.stage3Exit now
                (Pipeline.runRagIndexStep jobId kf rid w now
                  (Pipeline.knowledgeSyncStep jobId kf rid w.knowledgeStats now db))).2 := by
        unfold Pipeline.runPipelineAfterStage1
        simp only [if_pos hch, hfst3]
      rw [hred, pipelineCatch_statusWrites jobId _ now _ j5 hj5, hswC, hswR, hsw3,
        if_pos he3]
    · have hfst3 : (Pipeline.runLoggedProcess jobId "train_qlora" w.stage3Out
          w.stage3Exit now (Pipeline.runRagIndexStep jobId kf rid w now
            (Pipeline.knowledgeSyncStep jobId kf rid w.knowledgeStats now db))).1
          = Except.ok () := by
        rw [hfstC, if_neg he3]
      have hred : Pipeline.runPipelineAfterStage1 jobId kf rid w now db
          = Pipeline.finishSuccess jobId now
              (Pipeline.runLoggedProcess jobId "train_qlora" w.stage3Out w.stage3Exit now
                (Pipeline.runRagIndexStep jobId kf rid w now
                  (Pipeline.knowledgeSyncStep jobId kf rid w.knowledgeStats now db))).2 := by
        unfold Pipeline.runPipelineAfterStage1
        simp only [if_pos hch, hfst3]
      rw [hred, finishSuccess_statusWrites jobId now _ j5 hj5, hswC, hswR, hsw3,
        if_neg he3]
  · have hj3b := getJobDB_appendLogRepo_self jobId
      "No knowledge chunks found, skipping RAG index build." now
      (Pipeline.knowledgeSyncStep jobId kf rid w.knowledgeStats now db) j3 hj3
    obtain ⟨hfstC, hclC, hsrC, hswC, j5, hj5, hcid5, hst5, herr5, hlogs5⟩ :=
      runLoggedProcess_spec jobId "train_qlora" w.stage3Out w.stage3Exit now
        (Repo.appendLogRepo jobId "No knowledge chunks found, skipping RAG index build."
          now (Pipeline.knowledgeSyncStep jobId kf rid w.knowledgeStats now db)) _ hj3b
    by_cases he3 : w.stage3Exit ≠ 0
    · have hfst3 : (Pipeline.runLoggedProcess jobId "train_qlora" w.stage3Out
          w.stage3Exit now (Repo.appendLogRepo jobId
            "No knowledge chunks found, skipping RAG index build." now
            (Pipeline.knowledgeSyncStep jobId kf rid w.knowledgeStats now db))).1
          = Except.error ("train_qlora" ++ " exited with code " ++ toString w.stage3Exit) := by
        rw [hfstC, if_pos he3]
      have hred : Pipeline.runPipelineAfterStage1 jobId kf rid w now db
          = Pipeline.pipelineCatch jobId
              ("train_qlora" ++ " exited with code " ++ toString w.stage3Exit) now
              (Pipeline.runLoggedProcess jobId "train_qlora" w.stage3Out w.stage3Exit now
                (Repo.appendLogRepo jobId
                  "No knowledge chunks found, skipping RAG index build." now
                  (Pipeline.knowledgeSyncStep jobId kf rid w.knowledgeStats now db))).2 := by
        unfold Pipeline.runPipelineAfterStage1
        simp only [if_neg hch, hfst3]
      rw [hred, pipelineCatch_statusWrites jobId _ now _ _ hj5, hswC,
        appendLogRepo_statusWrites, hsw3, if_pos he3]
    · have hfst3 : (Pipeline.runLoggedProcess jobId "train_qlora" w.stage3Out
          w.stage3Exit now (Repo.appendLogRepo jobId
            "No knowledge chunks found, skipping RAG index build." now
            (Pipeline.knowledgeSyncStep jobId kf rid w.knowledgeStats now db))).1
          = Except.ok () := by
        rw [hfstC, if_neg he3]
      have hred : Pipeline.runPipelineAfterStage1 jobId kf rid w now db
          = Pipeline.finishSuccess jobId now
              (Pipeline.runLoggedProcess jobId "train_qlora" w.stage3Out w.stage3Exit now
                (Repo.appendLogRepo jobId
                  "No knowledge chunks found, skipping RAG index build." now
                  (Pipeline.knowledgeSyncStep jobId kf rid w.knowledgeStats now db))).2 := by
        unfold Pipeline.runPipelineAfterStage1
        simp only [if_neg hch, hfst3]
      rw [hred, finishSuccess_statusWrites jobId now _ _ hj5, hswC,
        appendLogRepo_statusWrites, hsw3, if_neg he3]

/-- The forward transitions the claim allows. -/
def jobStepOk (a b : JobStatus) : Prop :=
  (a = JobStatus.queued ∧ b = JobStatus.running)
  ∨ (a = JobStatus.running ∧ (b = JobStatus.succeeded ∨ b = JobStatus.failed))

/-- queued < running < terminal. -/
def jobStatusRank : JobStatus → Nat
  | JobStatus.queued => 0
  | JobStatus.running => 1
  | JobStatus.succeeded => 2
  | JobStatus.failed => 2

/-- Statuses per entry of a job map. -/
def mapStatuses (l : List (String × TrainingJob)) : List (String × JobStatus) :=
  l.map (fun q => (q.1, q.2.status))

/-- `Map.set` of a record with the same status keeps every status. -/
theorem mapStatuses_set (l : List (String × TrainingJob)) (id : String)
    (j jnew : TrainingJob) (hg : Js.get l id = some j)
    (hs : jnew.status = j.status) :
    mapStatuses (Js.set l id jnew) = mapStatuses l := by
  induction l with
  | nil => simp [Js.get] at hg
  | cons hd tl ih =>
    obtain ⟨k2, v2⟩ := hd
    by_cases h2 : k2 = id
    · simp only [Js.get, if_pos h2] at hg
      injection hg with hg
      simp [Js.set, mapStatuses, h2, hs, hg]
    · simp only [Js.get, if_neg h2] at hg
      simp only [mapStatuses, Js.set, if_neg h2, List.map_cons] at ih ⊢
      rw [ih hg]

/-- Claim C5: along the operations of the orchestrator a Job's status only
moves forward.  The pipeline writes exactly `running` then one terminal
status and then stops (first conjunct, on the ghost status trace); the
allowed step relation is forward-ranked and nothing steps out of a
terminal status; restart sanitization never lowers the rank and fixes
terminal jobs; log appends never change any status. -/
theorem C5_status_moves_forward :
    (∀ (jobId : String) (p : Pipeline.TrainPayload) (w : Pipeline.PipelineWorld)
        (now : Nat) (db : Repo.DB) (j : TrainingJob),
      db.statusWrites = [] → Repo.getJobDB jobId db = some j →
      (Pipeline.runPipeline jobId p w now db).statusWrites
          = [(jobId, JobStatus.running), (jobId, JobStatus.succeeded)]
        ∨ (Pipeline.runPipeline jobId p w now db).statusWrites
          = [(jobId, JobStatus.running), (jobId, JobStatus.failed)])
    ∧ (jobStepOk JobStatus.queued JobStatus.running
        ∧ jobStepOk JobStatus.running JobStatus.succeeded
        ∧ jobStepOk JobStatus.running JobStatus.failed)
    ∧ (∀ a b, jobStepOk a b → jobStatusRank a < jobStatusRank b)
    ∧ (∀ a b, jobStepOk a b → a ≠ JobStatus.succeeded ∧ a ≠ JobStatus.failed)
    ∧ (∀ j : TrainingJob,
        jobStatusRank j.status ≤ jobStatusRank (JobStore.sanitizeLoadedJob j).status
        ∧ ((j.status = JobStatus.succeeded ∨ j.status = JobStatus.failed) →
            JobStore.sanitizeLoadedJob j = j))
    ∧ (∀ (st : JobStore.State) (id line : String) (now : Nat),
        mapStatuses (JobStore.appendLog st id line now) = mapStatuses st)
    ∧ (∀ (id line : String) (now : Nat) (db : Repo.DB),
        mapStatuses (Repo.appendLogRepo id line now db).jobs = mapStatuses db.jobs
        ∧ (Repo.appendLogRepo id line now db).statusWrites = db.statusWrites) := by
  refine ⟨?_, ?_, ?_, ?_, ?_, ?_, ?_⟩
  · intro jobId p w now db j hGhost hj
    obtain ⟨hj1, hcid1, hst1, hlogs1, herr1, hcl1, hsr1, hsw1⟩ :=
      initialJobUpdate_spec jobId now db j hj
    obtain ⟨hfstA, hclA, hsrA, hswA, j2, hj2, hcid2, hst2, herr2, hlogs2⟩ :=
      runLoggedProcess_spec jobId "dataset_pipeline" w.stage1Out w.stage1Exit now
        (Repo.updateJobRepo jobId (initialJobUpdate jobId) now db) _ hj1
    by_cases e1 : w.stage1Exit ≠ 0
    · right
      have hfst2 : (Pipeline.runLoggedProcess jobId "dataset_pipeline" w.stage1Out
          w.stage1Exit now (Repo.updateJobRepo jobId (initialJobUpdate jobId) now db)).1
          = Except.error ("dataset_pipeline" ++ " exited with code "
              ++ toString w.stage1Exit) := by
        rw [hfstA, if_pos e1]
      have hred : Pipeline.runPipeline jobId p w now db
          = Pipeline.pipelineCatch jobId
              ("dataset_pipeline" ++ " exited with code " ++ toString w.stage1Exit) now
              (Pipeline.runLoggedProcess jobId "dataset_pipeline" w.stage1Out
                w.stage1Exit now
                (Repo.updateJobRepo jobId (initialJobUpdate jobId) now db)).2 := by
        rw [runPipeline_eq]
        simp only [hfst2]
      rw [hred, pipelineCatch_statusWrites jobId _ now _ j2 hj2, hswA, hsw1, hGhost]
      simp
    · have hfst2 : (Pipeline.runLoggedProcess jobId "dataset_pipeline" w.stage1Out
          w.stage1Exit now (Repo.updateJobRepo jobId (initialJobUpdate jobId) now db)).1
          = Except.ok () := by
        rw [hfstA, if_neg e1]
      have hred : Pipeline.runPipeline jobId p w now db
          = Pipeline.runPipelineAfterStage1 jobId
              (Pipeline.OUTPUTS_DIR ++ "/" ++ jobId ++ "/processed_dataset" ++ "/knowledge.jsonl")
              (Pipeline.OUTPUTS_DIR ++ "/" ++ jobId ++ "/rag_index") w now
              (Pipeline.runLoggedProcess jobId "dataset_pipeline" w.stage1Out
                w.stage1Exit now
                (Repo.updateJobRepo jobId (initialJobUpdate jobId) now db)).2 := by
        rw [runPipeline_eq]
        simp only [hfst2]
      rw [hred, runPipelineAfterStage1_statusWrites _ _ _ w now _ j2 hj2, hswA, hsw1,
        hGhost]
      by_cases e3 : w.stage3Exit ≠ 0
      · right
        rw [if_pos e3]
        simp
      · left
        rw [if_neg e3]
        simp
  · exact ⟨Or.inl ⟨rfl, rfl⟩, Or.inr ⟨rfl, Or.inl rfl⟩, Or.inr ⟨rfl, Or.inr rfl⟩⟩
  · intro a b h
    rcases h with ⟨ha, hb⟩ | ⟨ha, hb⟩
    · subst ha; subst hb; simp [jobStatusRank]
    · rcases hb with hb | hb <;> (subst ha; subst hb; simp [jobStatusRank])
  · intro a b h
    rcases h with ⟨ha, _⟩ | ⟨ha, _⟩ <;> (subst ha; exact ⟨by simp, by simp⟩)
  · intro j
    constructor
    · unfold JobStore.sanitizeLoadedJob
      by_cases h : j.status = JobStatus.running
      · simp [h, jobStatusRank]
      · simp [h]
    · intro hterm
      unfold JobStore.sanitizeLoadedJob
      rcases hterm with h | h <;> simp [h]
  · intro st id line now
    unfold JobStore.appendLog
    cases hg : Js.get st id with
    | none => rfl
    | some j => exact mapStatuses_set st id j _ hg rfl
  · intro id line now db
    constructor
    · unfold Repo.appendLogRepo
      cases hg : Js.get db.jobs id with
      | none => rfl
      | some j => exact mapStatuses_set db.jobs id j _ hg rfl
    · exact appendLogRepo_statusWrites id line now db

/-- After stage 1, with at least one knowledge chunk, a failed stage 2 and
a clean stage 3: stage 3 still runs, the failure is only logged, the job
succeeds and the clone becomes ready. -/
theorem runPipelineAfterStage1_rag_fail_spec (jobId kf rid : String)
    (w : Pipeline.PipelineWorld) (now : Nat) (db : Repo.DB)
    (j : TrainingJob) (cid : String) (c : CloneRecord)
    (hj : Repo.getJobDB jobId db = some j)
    (hcid : j.cloneId = some cid)
    (hc : Repo.getCloneDB cid db = some c)
    (hch : w.knowledgeStats.totalChunks > 0)
    (he2 : w.stage2Exit ≠ 0)
    (he3 : w.stage3Exit = 0) :
    (∃ jf, Repo.getJobDB jobId (Pipeline.runPipelineAfterStage1 jobId kf rid w now db)
        = some jf
      ∧ jf.status = JobStatus.succeeded
      ∧ ("RAG index build failed (will continue without RAG): "
          ++ ("rag_index" ++ " exited with code " ++ toString w.stage2Exit)) ∈ jf.logs)
    ∧ (Repo.getCloneDB cid (Pipeline.runPipelineAfterStage1 jobId kf rid w now db)).map
        (fun x => x.status) = some CloneStatus.ready
    ∧ (Pipeline.runPipelineAfterStage1 jobId kf rid w now db).stagesRun
        = db.stagesRun ++ ["rag_index", "train_qlora"] := by
  obtain ⟨j3, c3, hj3, hc3, hcid3, hst3, herr3, hlogs3, hcst3, hsr3, hsw3⟩ :=
    knowledgeSyncStep_spec jobId kf rid w.knowledgeStats now db j cid c hj hcid hc
  obtain ⟨hclR, hsrR, hswR, j4, hj4, hcid4, hst4, herr4, hlogs4⟩ :=
    runRagIndexStep_spec jobId kf rid w now
      (Pipeline.knowledgeSyncStep jobId kf rid w.knowledgeStats now db) j3 hj3
  obtain ⟨hfstC, hclC, hsrC, hswC, j5, hj5, hcid5, hst5, herr5, hlogs5⟩ :=
    runLoggedProcess_spec jobId "train_qlora" w.stage3Out w.stage3Exit now
      (Pipeline.runRagIndexStep jobId kf rid w now
        (Pipeline.knowledgeSyncStep jobId kf rid w.knowledgeStats now db)) j4 hj4
  have hfst3 : (Pipeline.runLoggedProcess jobId "train_qlora" w.stage3Out
      w.stage3Exit now (Pipeline.runRagIndexStep jobId kf rid w now
        (Pipeline.knowledgeSyncStep jobId kf rid w.knowledgeStats now db))).1
      = Except.ok () := by
    rw [hfstC, if_neg (by simp [he3])]
  have hred : Pipeline.runPipelineAfterStage1 jobId kf rid w now db
      = Pipeline.finishSuccess jobId now
          (Pipeline.runLoggedProcess jobId "train_qlora" w.stage3Out w.stage3Exit now
            (Pipeline.runRagIndexStep jobId kf rid w now
              (Pipeline.knowledgeSyncStep jobId kf rid w.knowledgeStats now db))).2 := by
    unfold Pipeline.runPipelineAfterStage1
    simp only [if_pos hch, hfst3]
  have hcid5b : j5.cloneId = some cid := by rw [hcid5, hcid4, hcid3, hcid]
  have hc5 : Repo.getCloneDB cid
      (Pipeline.runLoggedProcess jobId "train_qlora" w.stage3Out w.stage3Exit now
        (Pipeline.runRagIndexStep jobId kf rid w now
          (Pipeline.knowledgeSyncStep jobId kf rid w.knowledgeStats now db))).2
      = some c3 := by
    show Js.get _ cid = some c3
    rw [hclC, hclR]
    exact hc3
  obtain ⟨hjf, hcf, hsrf, hswf⟩ := finishSuccess_spec jobId now _ j5 cid c3 hj5 hcid5b hc5
  refine ⟨⟨{ j5 with status := JobStatus.succeeded, updatedAt := now },
      by rw [hred]; exact hjf, rfl, ?_⟩, ?_, ?_⟩
  · show _ ∈ j5.logs
    rw [hlogs5, hlogs4, hlogs3]
    simp [he2]
  · rw [hred, hcf]
    rfl
  · rw [hred, hsrf, hsrC, hsrR, hsr3]
    simp

/-- Claim C2: when stage 1 succeeds with at least one knowledge chunk, a
non-zero exit from stage 2 (knowledge indexing) is non-fatal: the failure
is appended to the job's log, stage 3 still runs (`train_qlora` appears
in the stage trace), and since stage 3 exits 0 the job ends `succeeded`
and the linked clone ends `ready`. -/
theorem C2_stage2_failure_nonfatal (jobId : String) (p : Pipeline.TrainPayload)
    (w : Pipeline.PipelineWorld) (now : Nat) (db : Repo.DB)
    (j : TrainingJob) (cid : String) (c : CloneRecord)
    (hj : Repo.getJobDB jobId db = some j)
    (hcid : j.cloneId = some cid)
    (hc : Repo.getCloneDB cid db = some c)
    (h1 : w.stage1Exit = 0)
    (hch : w.knowledgeStats.totalChunks > 0)
    (h2 : w.stage2Exit ≠ 0)
    (h3 : w.stage3Exit = 0) :
    (∃ jf, Repo.getJobDB jobId (Pipeline.runPipeline jobId p w now db) = some jf
      ∧ jf.status = JobStatus.succeeded
      ∧ ("RAG index build failed (will continue without RAG): "
          ++ ("rag_index" ++ " exited with code " ++ toString w.stage2Exit)) ∈ jf.logs)
    ∧ (Repo.getCloneDB cid (Pipeline.runPipeline jobId p w now db)).map
        (fun x => x.status) = some CloneStatus.ready
    ∧ (Pipeline.runPipeline jobId p w now db).stagesRun
        = db.stagesRun ++ ["dataset_pipeline", "rag_index", "train_qlora"] := by
  obtain ⟨hj1, hcid1, hst1, hlogs1, herr1, hcl1, hsr1, hsw1⟩ :=
    initialJobUpdate_spec jobId now db j hj
  obtain ⟨hfstA, hclA, hsrA, hswA, j2, hj2, hcid2, hst2, herr2, hlogs2⟩ :=
    runLoggedProcess_spec jobId "dataset_pipeline" w.stage1Out w.stage1Exit now
      (Repo.updateJobRepo jobId (initialJobUpdate jobId) now db) _ hj1
  have hfst2 : (Pipeline.runLoggedProcess jobId "dataset_pipeline" w.stage1Out
      w.stage1Exit now (Repo.updateJobRepo jobId (initialJobUpdate jobId) now db)).1
      = Except.ok () := by
    rw [hfstA, if_neg (by simp [h1])]
  have hred : Pipeline.runPipeline jobId p w now db
      = Pipeline.runPipelineAfterStage1 jobId
          (Pipeline.OUTPUTS_DIR ++ "/" ++ jobId ++ "/processed_dataset" ++ "/knowledge.jsonl")
          (Pipeline.OUTPUTS_DIR ++ "/" ++ jobId ++ "/rag_index") w now
          (Pipeline.runLoggedProcess jobId "dataset_pipeline" w.stage1Out
            w.stage1Exit now (Repo.updateJobRepo jobId (initialJobUpdate jobId) now db)).2 := by
    rw [runPipeline_eq]
    simp only [hfst2]
  have hcid2b : j2.cloneId = some cid := by rw [hcid2, hcid1, hcid]
  have hc2 : Repo.getCloneDB cid
      (Pipeline.runLoggedProcess jobId "dataset_pipeline" w.stage1Out
        w.stage1Exit now (Repo.updateJobRepo jobId (initialJobUpdate jobId) now db)).2
      = some c := by
    show Js.get _ cid = some c
    rw [hclA, hcl1]
    exact hc
  obtain ⟨⟨jf, hjf, hstf, hmem⟩, hcf, hsrf⟩ :=
    runPipelineAfterStage1_rag_fail_spec jobId
      (Pipeline.OUTPUTS_DIR ++ "/" ++ jobId ++ "/processed_dataset" ++ "/knowledge.jsonl")
      (Pipeline.OUTPUTS_DIR ++ "/" ++ jobId ++ "/rag_index") w now _ j2 cid c
      hj2 hcid2b hc2 hch h2 h3
  refine ⟨⟨jf, by rw [hred]; exact hjf, hstf, hmem⟩, ?_, ?_⟩
  · rw [hred]
    exact hcf
  · rw [hred, hsrf, hsrA, hsr1]
    simp

/-- A repository holding one queued job linked to one training clone. -/
def sampleDB : Repo.DB :=
  { jobs := [("j1", sampleJob)], clones := [("c1", sampleClone)],
    stagesRun := [], statusWrites := [] }

def samplePayload : Pipeline.TrainPayload :=
  { modelId := "m", datasetId := "d", systemPrompt := "", persona := none }

/-- A world where dataset parsing exits 1. -/
def stage1FailWorld : Pipeline.PipelineWorld :=
  { stage1Exit := 1, stage1Out := ["parse error"], stage2Exit := 0, stage2Out := [],
    stage3Exit := 0, stage3Out := [],
    knowledgeStats := { totalChunks := 0, sources := [] } }

/-- A world where parsing succeeds with 12 chunks, indexing exits 2 and
training exits 0. -/
def stage2FailWorld : Pipeline.PipelineWorld :=
  { stage1Exit := 0, stage1Out := ["parsed"], stage2Exit := 2,
    stage2Out := ["index boom"], stage3Exit := 0, stage3Out := ["trained"],
    knowledgeStats := { totalChunks := 12, sources := [] } }

/-- Witness for C1 at a concrete run. -/
theorem C1_stage1_failure_fatal_witness :
    (Repo.getJobDB "j1" (Pipeline.runPipeline "j1" samplePayload stage1FailWorld 7
        sampleDB)).map (fun x => x.status) = some JobStatus.failed
    ∧ (Repo.getJobDB "j1" (Pipeline.runPipeline "j1" samplePayload stage1FailWorld 7
        sampleDB)).bind (fun x => x.error)
      = some ("dataset_pipeline" ++ " exited with code "
          ++ toString stage1FailWorld.stage1Exit)
    ∧ (Repo.getCloneDB "c1" (Pipeline.runPipeline "j1" samplePayload stage1FailWorld 7
        sampleDB)).map (fun x => x.status) = some CloneStatus.failed
    ∧ (Pipeline.runPipeline "j1" samplePayload stage1FailWorld 7 sampleDB).stagesRun
      = sampleDB.stagesRun ++ ["dataset_pipeline"] :=
  C1_stage1_failure_fatal "j1" samplePayload stage1FailWorld 7 sampleDB sampleJob
    "c1" sampleClone rfl rfl rfl (by decide)

/-- Witness for C2 at a concrete run. -/
theorem C2_stage2_failure_nonfatal_witness :
    (∃ jf, Repo.getJobDB "j1" (Pipeline.runPipeline "j1" samplePayload stage2FailWorld 7
        sampleDB) = some jf
      ∧ jf.status = JobStatus.succeeded
      ∧ ("RAG index build failed (will continue without RAG): "
          ++ ("rag_index" ++ " exited with code "
            ++ toString stage2FailWorld.stage2Exit)) ∈ jf.logs)
    ∧ (Repo.getCloneDB "c1" (Pipeline.runPipeline "j1" samplePayload stage2FailWorld 7
        sampleDB)).map (fun x => x.status) = some CloneStatus.ready
    ∧ (Pipeline.runPipeline "j1" samplePayload stage2FailWorld 7 sampleDB).stagesRun
      = sampleDB.stagesRun ++ ["dataset_pipeline", "rag_index", "train_qlora"] :=
  C2_stage2_failure_nonfatal "j1" samplePayload stage2FailWorld 7 sampleDB sampleJob
    "c1" sampleClone rfl rfl rfl rfl (by decide) (by decide) rfl

/-- Witness for C5 at a concrete run. -/
theorem C5_status_moves_forward_witness :
    (Pipeline.runPipeline "j1" samplePayload stage1FailWorld 7 sampleDB).statusWrites
        = [("j1", JobStatus.running), ("j1", JobStatus.succeeded)]
      ∨ (Pipeline.runPipeline "j1" samplePayload stage1FailWorld 7 sampleDB).statusWrites
        = [("j1", JobStatus.running), ("j1", JobStatus.failed)] :=
  C5_status_moves_forward.1 "j1" samplePayload stage1FailWorld 7 sampleDB sampleJob
    rfl rfl

namespace IntegrationStore

/-- First integration of the given platform in a clone's list. -/
def findPlatform (l : List IntegrationConfig) (platform : IntegrationPlatform) :
    Option IntegrationConfig :=
  l.find? (fun i => decide (i.platform = platform))

/-- The store after a sequence of serialized `upsertIntegration` bodies
for one (cloneId, platform), each with its own `Date.now()`. -/
def applyUpserts (cloneId : String) (platform : IntegrationPlatform)
    (us : List (UpsertData × Nat)) (store : Store) : Store :=
  us.foldl (fun s u => (upsertBody cloneId platform u.1 u.2 s).1) store

/-- The in-place field merge `upsertIntegration` performs on an existing
entry: present fields overwrite, absent fields are kept. -/
def mergeEntry (i : IntegrationConfig) (d : UpsertData) (now : Nat) :
    IntegrationConfig :=
  { i with
    active := d.active.getD i.active
    token := if d.token.isSome then d.token else i.token
    updatedAt := now }

/-- The per-entry effect of one serialized upsert sequence. -/
def foldEntry (e : IntegrationConfig) (us : List (UpsertData × Nat)) :
    IntegrationConfig :=
  us.foldl (fun acc u => mergeEntry acc u.1 u.2) e

/-- The entry a first upsert creates in an empty list. -/
def createdEntry (platform : IntegrationPlatform) (u : UpsertData × Nat) :
    IntegrationConfig :=
  { platform := platform, active := u.1.active.getD false,
    token := u.1.token, updatedAt := u.2 }

end IntegrationStore

/-- The mutex machine invariant: grants followed by the queue are exactly
the arrivals (so grants happen in FIFO arrival order), and a free mutex
has an empty queue. -/
theorem mutexStep_invariant (s : IntegrationStore.MutexState)
    (e : IntegrationStore.MutexEvent)
    (h1 : s.granted ++ s.queue = s.arrivals)
    (h2 : s.locked = false → s.queue = []) :
    (IntegrationStore.mutexStep s e).granted ++ (IntegrationStore.mutexStep s e).queue
      = (IntegrationStore.mutexStep s e).arrivals
    ∧ ((IntegrationStore.mutexStep s e).locked = false →
        (IntegrationStore.mutexStep s e).queue = []) := by
  cases e with
  | arrive t =>
    by_cases hl : s.locked
    · constructor
      · simp [IntegrationStore.mutexStep, hl, ← h1]
      · intro hfalse
        simp [IntegrationStore.mutexStep, hl] at hfalse
    · have hq := h2 (by simp [Bool.not_eq_true] at hl; exact hl)
      constructor
      · simp [IntegrationStore.mutexStep, hl, hq, ← h1]
      · intro hfalse
        simp [IntegrationStore.mutexStep, hl] at hfalse
  | release =>
    cases hq : s.queue with
    | nil =>
      constructor
      · simp only [IntegrationStore.mutexStep, hq]
        rw [← h1, hq]
      · intro _
        simp [IntegrationStore.mutexStep, hq]
    | cons t rest =>
      constructor
      · simp only [IntegrationStore.mutexStep, hq]
        rw [← h1, hq]
        simp
      · intro hfalse
        simp [IntegrationStore.mutexStep, hq] at hfalse

/-- The invariant holds along every event sequence from the initial state. -/
theorem mutexRun_invariant (es : List IntegrationStore.MutexEvent) :
    (IntegrationStore.mutexRun es).granted ++ (IntegrationStore.mutexRun es).queue
      = (IntegrationStore.mutexRun es).arrivals
    ∧ ((IntegrationStore.mutexRun es).locked = false →
        (IntegrationStore.mutexRun es).queue = []) := by
  have hgen : ∀ (l : List IntegrationStore.MutexEvent) (s : IntegrationStore.MutexState),
      s.granted ++ s.queue = s.arrivals → (s.locked = false → s.queue = []) →
      (l.foldl IntegrationStore.mutexStep s).granted
          ++ (l.foldl IntegrationStore.mutexStep s).queue
        = (l.foldl IntegrationStore.mutexStep s).arrivals
      ∧ ((l.foldl IntegrationStore.mutexStep s).locked = false →
          (l.foldl IntegrationStore.mutexStep s).queue = []) := by
    intro l
    induction l with
    | nil => intro s h1 h2; exact ⟨h1, h2⟩
    | cons e rest ih =>
      intro s h1 h2
      rw [List.foldl_cons]
      obtain ⟨h1b, h2b⟩ := mutexStep_invariant s e h1 h2
      exact ih _ h1b h2b
  exact hgen es IntegrationStore.mutexInit rfl (fun _ => rfl)

/-- One protected operation from a free mutex: the caller is granted the
lock, and whether the body returns or throws, the `finally` releases it. -/
theorem protectedOp_mutex (tid : Nat)
    (body : IntegrationStore.Store → Except String IntegrationStore.Store)
    (p : IntegrationStore.MutexState × IntegrationStore.Store)
    (hl : p.1.locked = false) (hq : p.1.queue = []) :
    (IntegrationStore.protectedOp tid body p).1.locked = false
    ∧ (IntegrationStore.protectedOp tid body p).1.queue = []
    ∧ (IntegrationStore.protectedOp tid body p).1.granted = p.1.granted ++ [tid] := by
  have hstep : IntegrationStore.mutexStep
      (IntegrationStore.mutexStep p.1 (IntegrationStore.MutexEvent.arrive tid))
      IntegrationStore.MutexEvent.release
      = { p.1 with locked := false, granted := p.1.granted ++ [tid], arrivals := p.1.arrivals ++ [tid] } := by
    simp [IntegrationStore.mutexStep, hl, hq]
  unfold IntegrationStore.protectedOp
  cases body p.2 with
  | ok st2 => simp [hstep, hq]
  | error e => simp [hstep, hq]

/-- A chain of protected operations starting from a free mutex: every
operation is granted the lock in FIFO task order, and the mutex ends
free no matter which bodies threw. -/
theorem runProtectedOps_spec
    (tasks : List (Nat × (IntegrationStore.Store → Except String IntegrationStore.Store)))
    (p : IntegrationStore.MutexState × IntegrationStore.Store)
    (hl : p.1.locked = false) (hq : p.1.queue = []) :
    (IntegrationStore.runProtectedOps tasks p).1.locked = false
    ∧ (IntegrationStore.runProtectedOps tasks p).1.queue = []
    ∧ (IntegrationStore.runProtectedOps tasks p).1.granted
        = p.1.granted ++ tasks.map Prod.fst := by
  induction tasks generalizing p with
  | nil => exact ⟨hl, hq, by simp [IntegrationStore.runProtectedOps]⟩
  | cons t rest ih =>
    obtain ⟨hl2, hq2, hg2⟩ := protectedOp_mutex t.1 t.2 p hl hq
    have hstep : IntegrationStore.runProtectedOps (t :: rest) p
        = IntegrationStore.runProtectedOps rest (IntegrationStore.protectedOp t.1 t.2 p) := by
      unfold IntegrationStore.runProtectedOps
      rw [List.foldl_cons]
    obtain ⟨hl3, hq3, hg3⟩ := ih (IntegrationStore.protectedOp t.1 t.2 p) hl2 hq2
    refine ⟨by rw [hstep]; exact hl3, by rw [hstep]; exact hq3, ?_⟩
    rw [hstep, hg3, hg2]
    simp


/-- `upsertEntry` acts on the first entry of the platform (or creates
one); the result always holds an entry for the platform combining the old
fields with the update. -/
theorem findPlatform_upsertEntry (l : List IntegrationConfig)
    (platform : IntegrationPlatform) (d : IntegrationStore.UpsertData) (now : Nat) :
    IntegrationStore.findPlatform (IntegrationStore.upsertEntry l platform d now) platform
      = some (match IntegrationStore.findPlatform l platform with
        | some i => IntegrationStore.mergeEntry i d now
        | none => IntegrationStore.createdEntry platform (d, now)) := by
  induction l with
  | nil =>
    simp [IntegrationStore.upsertEntry, IntegrationStore.findPlatform, List.find?,
      IntegrationStore.createdEntry]
  | cons i rest ih =>
    by_cases hp : i.platform = platform
    · simp only [IntegrationStore.upsertEntry, if_pos hp]
      simp [IntegrationStore.findPlatform, List.find?, hp, IntegrationStore.mergeEntry]
    · simp only [IntegrationStore.upsertEntry, if_neg hp]
      simp only [IntegrationStore.findPlatform, List.find?, decide_eq_true_eq] at ih ⊢
      simp [hp, ih]

/-- The store-level effect of one serialized upsert body on its own
(cloneId, platform) entry. -/
theorem upsertBody_findPlatform (cloneId : String) (platform : IntegrationPlatform)
    (d : IntegrationStore.UpsertData) (now : Nat) (store : IntegrationStore.Store) :
    IntegrationStore.findPlatform
      (IntegrationStore.getIntegrationsPure
        (IntegrationStore.upsertBody cloneId platform d now store).1 cloneId) platform
      = some (match IntegrationStore.findPlatform
          (IntegrationStore.getIntegrationsPure store cloneId) platform with
        | some i => IntegrationStore.mergeEntry i d now
        | none => IntegrationStore.createdEntry platform (d, now)) := by
  unfold IntegrationStore.upsertBody IntegrationStore.getIntegrationsPure
  rw [Js.get_set_self]
  cases hg : Js.get store cloneId with
  | none => simp [hg, findPlatform_upsertEntry]
  | some r => simp [hg, findPlatform_upsertEntry]

/-- One upsert body leaves every other clone entry alone. -/
theorem upsertBody_get_ne (cloneId k : String) (platform : IntegrationPlatform)
    (d : IntegrationStore.UpsertData) (now : Nat) (store : IntegrationStore.Store)
    (h : cloneId ≠ k) :
    Js.get (IntegrationStore.upsertBody cloneId platform d now store).1 k
      = Js.get store k := by
  unfold IntegrationStore.upsertBody
  exact Js.get_set_ne store cloneId k _ h

/-- Serialized upserts on an already-present entry fold field-by-field. -/
theorem applyUpserts_of_present (cloneId : String) (platform : IntegrationPlatform)
    (us : List (IntegrationStore.UpsertData × Nat)) (store : IntegrationStore.Store)
    (e : IntegrationConfig)
    (h : IntegrationStore.findPlatform
      (IntegrationStore.getIntegrationsPure store cloneId) platform = some e) :
    IntegrationStore.findPlatform
      (IntegrationStore.getIntegrationsPure
        (IntegrationStore.applyUpserts cloneId platform us store) cloneId) platform
      = some (IntegrationStore.foldEntry e us) := by
  induction us generalizing store e with
  | nil => exact h
  | cons u rest ih =>
    have hstep := upsertBody_findPlatform cloneId platform u.1 u.2 store
    rw [h] at hstep
    have hrec : IntegrationStore.applyUpserts cloneId platform (u :: rest) store
        = IntegrationStore.applyUpserts cloneId platform rest
            (IntegrationStore.upsertBody cloneId platform u.1 u.2 store).1 := by
      unfold IntegrationStore.applyUpserts
      rw [List.foldl_cons]
    rw [hrec, ih _ _ hstep]
    rfl

/-- Serialized upserts starting from a clone with no stored integrations:
the first call creates the entry, later calls merge into it. -/
theorem applyUpserts_of_absent (cloneId : String) (platform : IntegrationPlatform)
    (u : IntegrationStore.UpsertData × Nat)
    (rest : List (IntegrationStore.UpsertData × Nat))
    (store : IntegrationStore.Store) (hg : Js.get store cloneId = none) :
    IntegrationStore.findPlatform
      (IntegrationStore.getIntegrationsPure
        (IntegrationStore.applyUpserts cloneId platform (u :: rest) store) cloneId)
      platform
      = some (IntegrationStore.foldEntry (IntegrationStore.createdEntry platform u) rest) := by
  have habs : IntegrationStore.findPlatform
      (IntegrationStore.getIntegrationsPure store cloneId) platform = none := by
    unfold IntegrationStore.getIntegrationsPure
    rw [hg]
    rfl
  have hstep := upsertBody_findPlatform cloneId platform u.1 u.2 store
  rw [habs] at hstep
  have hrec : IntegrationStore.applyUpserts cloneId platform (u :: rest) store
      = IntegrationStore.applyUpserts cloneId platform rest
          (IntegrationStore.upsertBody cloneId platform u.1 u.2 store).1 := by
    unfold IntegrationStore.applyUpserts
    rw [List.foldl_cons]
  rw [hrec]
  exact applyUpserts_of_present cloneId platform rest _ _ hstep

theorem foldEntry_platform (e : IntegrationConfig)
    (us : List (IntegrationStore.UpsertData × Nat)) :
    (IntegrationStore.foldEntry e us).platform = e.platform := by
  induction us generalizing e with
  | nil => rfl
  | cons u rest ih =>
    show (IntegrationStore.foldEntry (IntegrationStore.mergeEntry e u.1 u.2) rest).platform = _
    rw [ih]
    rfl

theorem foldEntry_active (e : IntegrationConfig)
    (us : List (IntegrationStore.UpsertData × Nat)) :
    (IntegrationStore.foldEntry e us).active
      = us.foldl (fun a q => q.1.active.getD a) e.active := by
  induction us generalizing e with
  | nil => rfl
  | cons u rest ih =>
    show (IntegrationStore.foldEntry (IntegrationStore.mergeEntry e u.1 u.2) rest).active = _
    rw [ih, List.foldl_cons]
    rfl

theorem foldEntry_token (e : IntegrationConfig)
    (us : List (IntegrationStore.UpsertData × Nat)) :
    (IntegrationStore.foldEntry e us).token
      = us.foldl (fun t q => if q.1.token.isSome then q.1.token else t) e.token := by
  induction us generalizing e with
  | nil => rfl
  | cons u rest ih =>
    show (IntegrationStore.foldEntry (IntegrationStore.mergeEntry e u.1 u.2) rest).token = _
    rw [ih, List.foldl_cons]
    rfl

/-- Serialized upserts never touch another clone's entry. -/
theorem applyUpserts_get_ne (cloneId k : String) (platform : IntegrationPlatform)
    (us : List (IntegrationStore.UpsertData × Nat))
    (store : IntegrationStore.Store) (h : cloneId ≠ k) :
    Js.get (IntegrationStore.applyUpserts cloneId platform us store) k
      = Js.get store k := by
  induction us generalizing store with
  | nil => rfl
  | cons u rest ih =>
    have hrec : IntegrationStore.applyUpserts cloneId platform (u :: rest) store
        = IntegrationStore.applyUpserts cloneId platform rest
            (IntegrationStore.upsertBody cloneId platform u.1 u.2 store).1 := by
      unfold IntegrationStore.applyUpserts
      rw [List.foldl_cons]
    rw [hrec, ih, upsertBody_get_ne cloneId k platform u.1 u.2 store h]

/-- Claim C8: the `SimpleMutex` grants the lock in FIFO arrival order
(ghost trace invariant: grants followed by the still-queued callers are
exactly the arrivals, in order); a chain of protected operations releases
the lock on every exit path, ok or exception, ending with a free mutex
and each task granted once in task order; and N serialized
`upsertIntegration` bodies for one (cloneId, platform) all take effect
with no lost update — each optional field ends at its last written value,
fields never written keep their defaults — while other clone ids are
untouched. -/
theorem C8_mutex_serializes_upserts :
    (∀ es : List IntegrationStore.MutexEvent,
      (IntegrationStore.mutexRun es).granted ++ (IntegrationStore.mutexRun es).queue
        = (IntegrationStore.mutexRun es).arrivals)
    ∧ (∀ (tasks : List (Nat × (IntegrationStore.Store →
          Except String IntegrationStore.Store)))
        (p : IntegrationStore.MutexState × IntegrationStore.Store),
      p.1.locked = false → p.1.queue = [] →
      (IntegrationStore.runProtectedOps tasks p).1.locked = false
      ∧ (IntegrationStore.runProtectedOps tasks p).1.granted
          = p.1.granted ++ tasks.map Prod.fst)
    ∧ (∀ (cloneId : String) (platform : IntegrationPlatform)
        (u : IntegrationStore.UpsertData × Nat)
        (rest : List (IntegrationStore.UpsertData × Nat))
        (store : IntegrationStore.Store),
      Js.get store cloneId = none →
      ∃ e, IntegrationStore.findPlatform
          (IntegrationStore.getIntegrationsPure
            (IntegrationStore.applyUpserts cloneId platform (u :: rest) store) cloneId)
          platform = some e
        ∧ e.platform = platform
        ∧ e.active = rest.foldl (fun a q => q.1.active.getD a) (u.1.active.getD false)
        ∧ e.token = rest.foldl (fun t q => if q.1.token.isSome then q.1.token else t)
            u.1.token)
    ∧ (∀ (cloneId k : String) (platform : IntegrationPlatform)
        (us : List (IntegrationStore.UpsertData × Nat))
        (store : IntegrationStore.Store),
      cloneId ≠ k →
      Js.get (IntegrationStore.applyUpserts cloneId platform us store) k
        = Js.get store k) := by
  refine ⟨?_, ?_, ?_, ?_⟩
  · intro es
    exact (mutexRun_invariant es).1
  · intro tasks p hl hq
    obtain ⟨h1, _, h3⟩ := runProtectedOps_spec tasks p hl hq
    exact ⟨h1, h3⟩
  · intro cloneId platform u rest store hg
    refine ⟨IntegrationStore.foldEntry (IntegrationStore.createdEntry platform u) rest,
      applyUpserts_of_absent cloneId platform u rest store hg, ?_, ?_, ?_⟩
    · rw [foldEntry_platform]
      rfl
    · rw [foldEntry_active]
      rfl
    · rw [foldEntry_token]
      rfl
  · intro cloneId k platform us store h
    exact applyUpserts_get_ne cloneId k platform us store h

/-- An upsert that only sets `active`. -/
def upsertActive : IntegrationStore.UpsertData := { active := some true }

/-- An upsert that only sets `token`. -/
def upsertToken : IntegrationStore.UpsertData := { token := some "tok" }

/-- Witness for C8: two serialized upserts for the same (clone, platform),
one setting `active`, one setting `token`, both take effect. -/
theorem C8_mutex_serializes_upserts_witness :
    ∃ e, IntegrationStore.findPlatform
        (IntegrationStore.getIntegrationsPure
          (IntegrationStore.applyUpserts "c1" IntegrationPlatform.telegram
            [(upsertActive, 1), (upsertToken, 2)] [])
          "c1") IntegrationPlatform.telegram = some e
      ∧ e.platform = IntegrationPlatform.telegram
      ∧ e.active = [(upsertToken, 2)].foldl (fun a q => q.1.active.getD a)
          (upsertActive.active.getD false)
      ∧ e.token = [(upsertToken, 2)].foldl
          (fun t q => if q.1.token.isSome then q.1.token else t) upsertActive.token :=
  C8_mutex_serializes_upserts.2.2.1 "c1" IntegrationPlatform.telegram
    (upsertActive, 1) [(upsertToken, 2)] [] rfl
